import Mathlib

/-!
Verification of the GSK "next" GL command queue and render job
(`src/gsk/next/gskglcommandqueue.c`, `src/gsk/next/gskglrenderjob.c`).

The command queue owns a growable array of batches linked by integer
`next_batch_index` fields, a shared vertex buffer and shared arrays with
texture-bind and uniform-change records.  The render job walks a scene
graph and emits draw/clear batches into the queue.

Machine integers are modelled as `Nat`/`Int`; bit-field widths from the C
structures (`vbo_count : 16`, `uniform_count : 11`, `bind_count : 5`,
`program : 24`, `guint16` viewports) are modelled with explicit `% 2^w`
where the code can overflow them.  Floats are modelled as rationals.
-/

set_option maxHeartbeats 1000000
set_option maxRecDepth 16000

namespace GskGL

/-- Modelled from the spec: `GSK_GL_N_VERTICES` is defined in
`gskglcommandqueueprivate.h`, which is not among the sources; the spec's
"Rectangle tessellation" section states every filled-rectangle draw emits
six vertices, and `gsk_gl_render_job_draw_rect` writes exactly six. -/
def GSK_GL_N_VERTICES : Nat := 6

/-- A vertex as stored in the shared vertex buffer (`GskGLDrawVertex`):
a 2-D position and a 2-D texture coordinate. -/
structure GskGLDrawVertex where
  px : ℚ
  py : ℚ
  u : ℚ
  v : ℚ
  deriving Repr, DecidableEq, Inhabited

/-- The draw-specific fields of a batch (`GskGLCommandDraw`). -/
structure GskGLCommandDraw where
  framebuffer : Nat
  uniformCount : Nat
  bindCount : Nat
  vboCount : Nat
  vboOffset : Nat
  uniformOffset : Nat
  bindOffset : Nat
  deriving Repr, DecidableEq, Inhabited

/-- One snapshotted uniform change (`GskGLCommandUniform`): the value
payload lives in the shared uniform-state store, so only the format tag,
store offset, array count and GL location are recorded. -/
structure GskGLCommandUniform where
  format : Nat
  arrayCount : Nat
  offset : Nat
  location : Nat
  deriving Repr, DecidableEq, Inhabited

/-- One snapshotted texture bind (`GskGLCommandBind`). -/
structure GskGLCommandBind where
  texture : Nat
  id : Nat
  deriving Repr, DecidableEq, Inhabited

/-- The payload of the `GskGLCommandBatch` union, tagged by
`GskGLCommandKind`. -/
inductive GskGLCommandPayload where
  | clear (bits : Nat) (framebuffer : Nat)
  | pushDebugGroup (label : String)
  | popDebugGroup
  | draw (d : GskGLCommandDraw)
  deriving Repr, DecidableEq, Inhabited

/-- A batch (`GskGLCommandBatch`): the common `GskGLCommandBatchAny`
header fields plus the tagged payload. -/
structure GskGLCommandBatch where
  program : Nat
  nextBatchIndex : Int
  viewportWidth : Nat
  viewportHeight : Nat
  payload : GskGLCommandPayload
  deriving Repr, DecidableEq, Inhabited

/-- One tracked texture-unit binding of the attachment state
(`GskGLBindTexture`): the unit slot, the texture id and the
changed-since-last-snapshot flag. -/
structure GskGLBindTexture where
  texture : Nat
  id : Nat
  changed : Bool
  deriving Repr, DecidableEq, Inhabited

/-- A saved attachment-state snapshot, pushed by
`gsk_gl_command_queue_save` and popped by `gsk_gl_command_queue_restore`. -/
structure GskGLAttachmentSnapshot where
  fboId : Nat
  fboChanged : Bool
  textures : List GskGLBindTexture
  deriving Repr, DecidableEq, Inhabited

/-- The command-queue state (`GskGLCommandQueue`).  `pendingUniforms`
models the uniform-state diff log: the `(program, uniform)` pairs changed
since the last snapshot of that program.  Modelled from the spec: the
uniform-state implementation is not among the sources; the spec's
"Uniform State" section says it supports snapshotting just the uniforms
that changed since the last draw's snapshot.  Likewise `verticesLen` and
`vboData` model the shared vertex buffer, whose implementation file is
absent: per the spec it exposes the current offset and an advance
operation returning a writable pointer. -/
structure GskGLCommandQueue where
  batches : List GskGLCommandBatch
  tailBatchIndex : Int
  inDraw : Bool
  batchUniforms : List GskGLCommandUniform
  batchBinds : List GskGLCommandBind
  verticesLen : Nat
  vboData : List (Option GskGLDrawVertex)
  fboId : Nat
  fboChanged : Bool
  textures : List GskGLBindTexture
  pendingUniforms : List (Nat × GskGLCommandUniform)
  maxTextureSize : Int
  nextTextureId : Nat
  nextFramebufferId : Nat
  savedState : List GskGLAttachmentSnapshot
  deriving Repr, DecidableEq, Inhabited

namespace GskGLCommandQueue

/-- A fresh queue as produced by `gsk_gl_command_queue_new` followed by
`gsk_gl_command_queue_begin_frame`: empty batch/bind/uniform arrays,
`tail_batch_index = -1`, not inside a draw.  The attachment state and
uniform diff log are parameters because they are shared, pre-existing
objects. -/
def init (fboId : Nat) (textures : List GskGLBindTexture)
    (pending : List (Nat × GskGLCommandUniform)) (maxTextureSize : Int) :
    GskGLCommandQueue :=
  { batches := []
    tailBatchIndex := -1
    inDraw := false
    batchUniforms := []
    batchBinds := []
    verticesLen := 0
    vboData := []
    fboId := fboId
    fboChanged := false
    textures := textures
    pendingUniforms := pending
    maxTextureSize := maxTextureSize
    nextTextureId := 1
    nextFramebufferId := 1
    savedState := [] }

end GskGLCommandQueue

/-- `enqueue_batch`: link the most recently appended batch onto the tail
of the integer linked list and make it the new tail. -/
def enqueue_batch (q : GskGLCommandQueue) : GskGLCommandQueue :=
  let index : Int := (q.batches.length : Int) - 1
  let batches :=
    if q.tailBatchIndex = -1 then q.batches
    else
      let prev := q.batches.getD q.tailBatchIndex.toNat default
      q.batches.set q.tailBatchIndex.toNat { prev with nextBatchIndex := index }
  { q with batches := batches, tailBatchIndex := index }

/-- `discard_batch`: drop the most recently appended batch. -/
def discard_batch (q : GskGLCommandQueue) : GskGLCommandQueue :=
  { q with batches := q.batches.dropLast }

/-- `gsk_gl_command_queue_begin_draw`: append a fresh Draw batch (not yet
linked) recording the program, the viewport, and the current offsets into
the shared uniform/bind/vertex arrays, and enter the in-draw state.  The
`guint program : 24` and `guint16` viewport bit-fields truncate. -/
def gsk_gl_command_queue_begin_draw (q : GskGLCommandQueue)
    (program vw vh : Nat) : GskGLCommandQueue :=
  if q.inDraw then q
  else
    let d : GskGLCommandDraw :=
      { framebuffer := 0
        uniformCount := 0
        uniformOffset := q.batchUniforms.length
        bindCount := 0
        bindOffset := q.batchBinds.length
        vboCount := 0
        vboOffset := q.verticesLen }
    let batch : GskGLCommandBatch :=
      { program := program % 2 ^ 24
        nextBatchIndex := -1
        viewportWidth := vw % 2 ^ 16
        viewportHeight := vh % 2 ^ 16
        payload := .draw d }
    { q with batches := q.batches ++ [batch], inDraw := true }

/-- The texture-unit bindings `gsk_gl_command_queue_end_draw` snapshots:
those whose `changed` flag is set and whose id is positive. -/
def changedBinds (textures : List GskGLBindTexture) : List GskGLCommandBind :=
  (textures.filter fun t => t.changed && 0 < t.id).map fun t =>
    { texture := t.texture, id := t.id }

/-- The merge test of `gsk_gl_command_queue_end_draw` (lines 437-445):
previous batch is a Draw with the same program and viewport, the same
framebuffer, the new draw snapshotted zero uniform and bind changes, and
the vertex ranges are contiguous. -/
def can_merge (lb : GskGLCommandBatch) (ld : GskGLCommandDraw)
    (b : GskGLCommandBatch) (d : GskGLCommandDraw) : Bool :=
  lb.program == b.program &&
  lb.viewportWidth == b.viewportWidth &&
  lb.viewportHeight == b.viewportHeight &&
  ld.framebuffer == d.framebuffer &&
  d.uniformCount == 0 &&
  d.bindCount == 0 &&
  ld.vboOffset + ld.vboCount == d.vboOffset

/-- `gsk_gl_command_queue_end_draw`: if no vertices were written, discard
the batch as a no-op; otherwise snapshot the destination framebuffer, the
changed uniforms of the batch's program and the changed texture binds,
then either merge into the immediately preceding batch (extend its vertex
count and discard this one) or link this batch onto the tail. -/
def gsk_gl_command_queue_end_draw (q : GskGLCommandQueue) : GskGLCommandQueue :=
  if q.batches.length = 0 ∨ q.inDraw = false then q
  else
    let L := q.batches.length
    let batch := q.batches.getD (L - 1) default
    match batch.payload with
    | .draw d =>
      if d.vboCount = 0 then
        { (discard_batch q) with inDraw := false }
      else
        let snapU := (q.pendingUniforms.filter fun pu => pu.1 == batch.program).map Prod.snd
        let binds := changedBinds q.textures
        let d1 : GskGLCommandDraw :=
          { framebuffer := q.fboId
            uniformOffset := q.batchUniforms.length
            uniformCount := snapU.length % 2 ^ 11
            bindOffset := q.batchBinds.length
            bindCount := binds.length % 2 ^ 5
            vboCount := d.vboCount
            vboOffset := d.vboOffset }
        let batch1 := { batch with payload := .draw d1 }
        let q1 : GskGLCommandQueue :=
          { q with
            fboChanged := false
            batchUniforms := q.batchUniforms ++ snapU
            pendingUniforms := q.pendingUniforms.filter fun pu => ¬ pu.1 == batch.program
            batchBinds := q.batchBinds ++ binds
            textures := q.textures.map fun t =>
              if t.changed && 0 < t.id then { t with changed := false } else t
            batches := q.batches.set (L - 1) batch1 }
        if 2 ≤ L then
          let lb := q.batches.getD (L - 2) default
          match lb.payload with
          | .draw ld =>
            if can_merge lb ld batch1 d1 then
              let ld1 := { ld with vboCount := (ld.vboCount + d1.vboCount) % 2 ^ 16 }
              let merged := { lb with payload := GskGLCommandPayload.draw ld1 }
              { q1 with
                batches := (q1.batches.set (L - 2) merged).dropLast
                inDraw := false }
            else
              { (enqueue_batch q1) with inDraw := false }
          | _ => { (enqueue_batch q1) with inDraw := false }
        else { (enqueue_batch q1) with inDraw := false }
    | _ => q

/-- `gsk_gl_command_queue_add_vertices`: reserve `GSK_GL_N_VERTICES`
vertices in the shared buffer and extend the open batch's vertex count
(a 16-bit bit-field).  Returns the destination offset (the writable
pointer) when no source was given; returns `none` (NULL) after copying
when a source was given, and also on the in-draw contract violation. -/
def gsk_gl_command_queue_add_vertices (q : GskGLCommandQueue)
    (vertices : Option (List GskGLDrawVertex)) :
    GskGLCommandQueue × Option Nat :=
  if q.inDraw = false then (q, none)
  else
    let L := q.batches.length
    let batch := q.batches.getD (L - 1) default
    let batches :=
      match batch.payload with
      | .draw d =>
        let d1 := { d with vboCount := (d.vboCount + GSK_GL_N_VERTICES) % 2 ^ 16 }
        q.batches.set (L - 1) { batch with payload := GskGLCommandPayload.draw d1 }
      | _ => q.batches
    let offset := q.verticesLen
    let newData :=
      match vertices with
      | some vs => (vs.map some).take GSK_GL_N_VERTICES ++
          List.replicate (GSK_GL_N_VERTICES - vs.length) none
      | none => List.replicate GSK_GL_N_VERTICES none
    let q' := { q with
                batches := batches
                verticesLen := q.verticesLen + GSK_GL_N_VERTICES
                vboData := q.vboData ++ newData }
    match vertices with
    | some _ => (q', none)
    | none => (q', some offset)

/-- GL clear-mask bits used by `gsk_gl_command_queue_clear`. -/
def GL_DEPTH_BUFFER_BIT : Nat := 0x100
def GL_STENCIL_BUFFER_BIT : Nat := 0x400
def GL_COLOR_BUFFER_BIT : Nat := 0x4000

/-- `gsk_gl_command_queue_clear`: append and link a Clear batch against
the currently bound framebuffer; zero bits default to
color+depth+stencil. -/
def gsk_gl_command_queue_clear (q : GskGLCommandQueue)
    (clearBits vw vh : Nat) : GskGLCommandQueue :=
  if q.inDraw ∨ 2147483647 ≤ q.batches.length then q
  else
    let bits := if clearBits = 0 then
        GL_COLOR_BUFFER_BIT ||| GL_DEPTH_BUFFER_BIT ||| GL_STENCIL_BUFFER_BIT
      else clearBits
    let batch : GskGLCommandBatch :=
      { program := 0
        nextBatchIndex := -1
        viewportWidth := vw % 2 ^ 16
        viewportHeight := vh % 2 ^ 16
        payload := .clear bits q.fboId }
    let q1 := enqueue_batch { q with batches := q.batches ++ [batch] }
    { q1 with fboChanged := false }

/-- `gsk_gl_command_queue_push_debug_group`: append and link a
PushDebugGroup batch carrying the interned label. -/
def gsk_gl_command_queue_push_debug_group (q : GskGLCommandQueue)
    (label : String) : GskGLCommandQueue :=
  if q.inDraw ∨ 2147483647 ≤ q.batches.length then q
  else
    let batch : GskGLCommandBatch :=
      { program := 0
        nextBatchIndex := -1
        viewportWidth := 0
        viewportHeight := 0
        payload := .pushDebugGroup label }
    enqueue_batch { q with batches := q.batches ++ [batch] }

/-- `gsk_gl_command_queue_pop_debug_group`: append and link a
PopDebugGroup batch. -/
def gsk_gl_command_queue_pop_debug_group (q : GskGLCommandQueue) :
    GskGLCommandQueue :=
  if q.inDraw ∨ 2147483647 ≤ q.batches.length then q
  else
    let batch : GskGLCommandBatch :=
      { program := 0
        nextBatchIndex := -1
        viewportWidth := 0
        viewportHeight := 0
        payload := .popDebugGroup }
    enqueue_batch { q with batches := q.batches ++ [batch] }

/-- `gsk_gl_command_queue_bind_framebuffer`, via
`gsk_gl_attachment_state_bind_framebuffer`.  Modelled from the spec: the
attachment-state implementation is not among the sources; the spec's
"Attachment State" section tracks the currently bound framebuffer id with
a changed-since-last-snapshot flag, recording only changes. -/
def gsk_gl_command_queue_bind_framebuffer (q : GskGLCommandQueue)
    (fb : Nat) : GskGLCommandQueue :=
  if q.fboId = fb then q
  else { q with fboId := fb, fboChanged := true }

end GskGL

namespace GskGL

/-- The `next_batch_index` field of batch `i`, the integer linked-list
relation over the dense batch array. -/
def batchNext (l : List GskGLCommandBatch) (i : Nat) : Int :=
  (l.getD i default).nextBatchIndex

/-- C5: a begin_draw/end_draw bracket in which zero vertices were added
is discarded as a no-op: the resulting queue state is exactly the state
before `begin_draw` (same batch list, no uniform or bind snapshot
entries, in-draw left normally). -/
theorem end_draw_empty_bracket_is_noop (q : GskGLCommandQueue)
    (program vw vh : Nat) (h : q.inDraw = false) :
    gsk_gl_command_queue_end_draw
      (gsk_gl_command_queue_begin_draw q program vw vh) = q := by
  simp only [gsk_gl_command_queue_begin_draw, h, if_false, Bool.false_eq_true,
    ite_false]
  simp only [gsk_gl_command_queue_end_draw, List.length_append, List.length_cons,
    List.length_nil, Nat.add_zero]
  simp only [discard_batch]
  simp [List.getD_append_right, List.dropLast_concat, ← h]

end GskGL

namespace GskGL

theorem batchNext_set_self (l : List GskGLCommandBatch) (i : Nat)
    (b : GskGLCommandBatch) (h : i < l.length) :
    batchNext (l.set i b) i = b.nextBatchIndex := by
  simp [batchNext, List.getD_eq_getElem?_getD, List.getElem?_set_self, h]

theorem batchNext_set_ne (l : List GskGLCommandBatch) (i j : Nat)
    (b : GskGLCommandBatch) (h : i ≠ j) :
    batchNext (l.set i b) j = batchNext l j := by
  simp [batchNext, List.getD_eq_getElem?_getD, List.getElem?_set_ne, h]

theorem batchNext_append_lt (l l2 : List GskGLCommandBatch) (j : Nat)
    (h : j < l.length) :
    batchNext (l ++ l2) j = batchNext l j := by
  simp [batchNext, List.getD_eq_getElem?_getD, List.getElem?_append, h]

theorem batchNext_append_last (l : List GskGLCommandBatch)
    (b : GskGLCommandBatch) :
    batchNext (l ++ [b]) l.length = b.nextBatchIndex := by
  simp [batchNext, List.getD_eq_getElem?_getD]

theorem batchNext_dropLast (l : List GskGLCommandBatch) (j : Nat)
    (h : j < l.length - 1) :
    batchNext l.dropLast j = batchNext l j := by
  have h2 : j < l.length := lt_of_lt_of_le h (Nat.sub_le _ _)
  simp [batchNext, List.getD_eq_getElem?_getD, List.dropLast_eq_take,
    List.getElem?_take, h, List.getElem?_eq_getElem, h2]

/-- `k` successive `gsk_gl_command_queue_add_vertices` calls with no
source array (the direct-write hot path used by
`gsk_gl_render_job_draw_rect`). -/
def addVerticesIter (q : GskGLCommandQueue) : Nat → GskGLCommandQueue
  | 0 => q
  | k + 1 => (gsk_gl_command_queue_add_vertices (addVerticesIter q k) none).1

/-- The open (not yet linked) Draw batch as it stands after `begin_draw`
on queue `q` once `c` vertices have been reserved. -/
def openBatch (q : GskGLCommandQueue) (program vw vh c : Nat) :
    GskGLCommandBatch :=
  { program := program % 2 ^ 24
    nextBatchIndex := -1
    viewportWidth := vw % 2 ^ 16
    viewportHeight := vh % 2 ^ 16
    payload := .draw
      { framebuffer := 0
        uniformCount := 0
        uniformOffset := q.batchUniforms.length
        bindCount := 0
        bindOffset := q.batchBinds.length
        vboCount := c
        vboOffset := q.verticesLen } }

theorem state_after_adds (q : GskGLCommandQueue) (program vw vh k : Nat)
    (h : q.inDraw = false) (hk : GSK_GL_N_VERTICES * k < 2 ^ 16) :
    addVerticesIter (gsk_gl_command_queue_begin_draw q program vw vh) k =
      { q with
        batches := q.batches ++ [openBatch q program vw vh (GSK_GL_N_VERTICES * k)]
        inDraw := true
        verticesLen := q.verticesLen + GSK_GL_N_VERTICES * k
        vboData := q.vboData ++ List.replicate (GSK_GL_N_VERTICES * k) none } := by
  induction k with
  | zero =>
    simp [addVerticesIter, gsk_gl_command_queue_begin_draw, h, openBatch]
  | succ n ih =>
    have hn : GSK_GL_N_VERTICES * n < 2 ^ 16 := by
      have : GSK_GL_N_VERTICES * n ≤ GSK_GL_N_VERTICES * (n + 1) :=
        Nat.mul_le_mul_left _ (Nat.le_succ n)
      omega
    rw [addVerticesIter, ih hn]
    simp only [gsk_gl_command_queue_add_vertices, openBatch]
    have hmod : (GSK_GL_N_VERTICES * n + GSK_GL_N_VERTICES) % 2 ^ 16 =
        GSK_GL_N_VERTICES * (n + 1) := by
      have : GSK_GL_N_VERTICES * (n + 1) = GSK_GL_N_VERTICES * n + GSK_GL_N_VERTICES := by ring
      rw [← this]
      exact Nat.mod_eq_of_lt hk
    simp only [List.length_append, List.length_singleton, Nat.add_sub_cancel]
    rw [List.getD_eq_getElem?_getD, List.getElem?_append_right (le_refl _)]
    simp only [Nat.sub_self, List.getElem?_cons_zero, Option.getD_some]
    simp only [List.set_append_right _ _ (le_refl _), Nat.sub_self]
    simp [hmod, Nat.mul_succ, ← List.replicate_add, Nat.add_assoc, List.append_assoc]
    have hms : GSK_GL_N_VERTICES * (n + 1) = GSK_GL_N_VERTICES * n + GSK_GL_N_VERTICES :=
      Nat.mul_succ _ _
    omega

end GskGL

namespace GskGL

/-- C10: inside a draw bracket, every `gsk_gl_command_queue_add_vertices`
call reserves exactly `GSK_GL_N_VERTICES` vertices in the shared buffer
and extends the open batch's `vbo_count` by exactly that quantum; its
return value is NULL exactly when a source vertex array was supplied (the
data having been copied into the buffer), while a call with no source
returns the writable destination offset.  Consequently, after
`begin_draw` and `k` such calls the open batch's vertex count is
`GSK_GL_N_VERTICES * k`. -/
theorem add_vertices_reserves_quantum :
    (∀ (q : GskGLCommandQueue) (src : Option (List GskGLDrawVertex))
        (d : GskGLCommandDraw),
      q.inDraw = true →
      (q.batches.getD (q.batches.length - 1) default).payload = .draw d →
      (gsk_gl_command_queue_add_vertices q src).1.verticesLen
          = q.verticesLen + GSK_GL_N_VERTICES ∧
      ((gsk_gl_command_queue_add_vertices q src).1.batches.getD
            (q.batches.length - 1) default).payload =
        GskGLCommandPayload.draw
          { d with vboCount := (d.vboCount + GSK_GL_N_VERTICES) % 2 ^ 16 } ∧
      ((gsk_gl_command_queue_add_vertices q src).2 = none ↔ src.isSome = true) ∧
      (src = none →
        (gsk_gl_command_queue_add_vertices q src).2 = some q.verticesLen) ∧
      (∀ vs, src = some vs → vs.length = GSK_GL_N_VERTICES →
        (gsk_gl_command_queue_add_vertices q src).1.vboData
          = q.vboData ++ vs.map some)) ∧
    (∀ (q : GskGLCommandQueue) (program vw vh k : Nat),
      q.inDraw = false → GSK_GL_N_VERTICES * k < 2 ^ 16 →
      ∃ b d,
        (addVerticesIter (gsk_gl_command_queue_begin_draw q program vw vh)
            k).batches.getLast? = some b ∧
        b.payload = .draw d ∧ d.vboCount = GSK_GL_N_VERTICES * k) := by
  constructor
  · intro q src d hin hb
    rcases hq : q.batches with _ | ⟨b0, bs⟩
    · rw [hq] at hb
      simp [List.getD] at hb
    · rw [← hq]
      have hlen : 0 < q.batches.length := by rw [hq]; simp
      have hlt : q.batches.length - 1 < q.batches.length := Nat.sub_lt hlen one_pos
      simp only [gsk_gl_command_queue_add_vertices, hin]
      rw [hb]
      cases src with
      | none =>
        refine ⟨by simp, ?_, by simp, by simp, by simp⟩
        simp [List.getD_eq_getElem?_getD, List.getElem?_set_self, hlt]
      | some vs =>
        refine ⟨by simp, ?_, by simp, by simp, ?_⟩
        · simp [List.getD_eq_getElem?_getD, List.getElem?_set_self, hlt]
        · intro vs2 hv hvs
          injection hv with hv2
          subst hv2
          have hle : (vs.map some).length ≤ GSK_GL_N_VERTICES := by simp [hvs]
          simp [hvs, List.take_of_length_le hle]
  · intro q program vw vh k h hk
    rw [state_after_adds q program vw vh k h hk]
    exact ⟨openBatch q program vw vh (GSK_GL_N_VERTICES * k), _, by simp, rfl, rfl⟩

end GskGL

namespace GskGL

theorem getD_last_of_getLast? (l : List GskGLCommandBatch)
    (b : GskGLCommandBatch) (h : l.getLast? = some b) :
    l.getD (l.length - 1) default = b := by
  have hne : l ≠ [] := by intro he; rw [he] at h; simp at h
  have := List.getLast?_eq_getElem? l
  rw [h] at this
  have hlt : l.length - 1 < l.length :=
    Nat.sub_lt (List.length_pos.mpr hne) one_pos
  simp [List.getD_eq_getElem?_getD, List.getElem?_eq_getElem, hlt] at this ⊢
  exact this.symm

theorem getLast?_set_last (l : List GskGLCommandBatch)
    (b : GskGLCommandBatch) (h : l ≠ []) :
    (l.set (l.length - 1) b).getLast? = some b := by
  have hlt : l.length - 1 < l.length :=
    Nat.sub_lt (List.length_pos.mpr h) one_pos
  rw [List.getLast?_eq_getElem?]
  simp [List.getElem?_set_self, hlt]

/-- One complete draw bracket as the render job records it:
`begin_draw`, `k` vertex-quantum reservations, `end_draw`. -/
def recordDraw (q : GskGLCommandQueue) (program vw vh k : Nat) :
    GskGLCommandQueue :=
  gsk_gl_command_queue_end_draw
    (addVerticesIter (gsk_gl_command_queue_begin_draw q program vw vh) k)

/-- The merge-adjacency condition of §3, read off `end_draw`: the batch
preceding the new draw is a Draw with the same (truncated) program and
viewport, its framebuffer equals the currently bound one, the new draw
has zero pending uniform changes for its program and zero changed texture
binds, and its vertex range starts exactly where the previous batch's
range ends. -/
def MergeCond (q : GskGLCommandQueue) (program vw vh : Nat) : Prop :=
  ∃ lb ld, q.batches.getLast? = some lb ∧ lb.payload = .draw ld ∧
    lb.program = program % 2 ^ 24 ∧
    lb.viewportWidth = vw % 2 ^ 16 ∧
    lb.viewportHeight = vh % 2 ^ 16 ∧
    ld.framebuffer = q.fboId ∧
    q.pendingUniforms.filter (fun pu => pu.1 == program % 2 ^ 24) = [] ∧
    changedBinds q.textures = [] ∧
    ld.vboOffset + ld.vboCount = q.verticesLen

end GskGL

namespace GskGL

theorem getD_concat_self {α : Type} [Inhabited α] (l : List α) (b d : α) :
    (l ++ [b]).getD l.length d = b := by
  simp [List.getD_eq_getElem?_getD]

theorem set_concat_self {α : Type} (l : List α) (b b2 : α) :
    (l ++ [b]).set l.length b2 = l ++ [b2] := by
  rw [List.set_append_right _ _ (le_refl _)]
  simp

theorem getD_concat_lt {α : Type} [Inhabited α] (l l2 : List α) (i : Nat)
    (d : α) (h : i < l.length) : (l ++ l2).getD i d = l.getD i d := by
  simp [List.getD_eq_getElem?_getD, List.getElem?_append, h]

end GskGL

namespace GskGL

/-- The earlier batch extended by the later draw's vertex count, as the
merge path of `end_draw` produces it (16-bit `vbo_count` bit-field). -/
def mergedBatch (lb : GskGLCommandBatch) (ld : GskGLCommandDraw) (c : Nat) :
    GskGLCommandBatch :=
  { lb with payload := GskGLCommandPayload.draw { ld with vboCount := (ld.vboCount + c) % 2 ^ 16 } }

end GskGL


namespace GskGL

theorem getLast?_eq_getD {α : Type} [Inhabited α] (l : List α) (h : l ≠ []) :
    l.getLast? = some (l.getD (l.length - 1) default) := by
  rw [List.getLast?_eq_getElem?]
  simp [List.getD_eq_getElem?_getD, List.getElem?_eq_getElem,
    Nat.sub_lt (List.length_pos.mpr h) one_pos]

/-- `end_draw` in decomposed form: for a queue whose batch array is
`l ++ [B]` with `B` the open Draw batch, the result of
`gsk_gl_command_queue_end_draw` described branch by branch. -/
theorem end_draw_decomposed (l : List GskGLCommandBatch)
    (B : GskGLCommandBatch) (d : GskGLCommandDraw) (q : GskGLCommandQueue)
    (hbatches : q.batches = l ++ [B])
    (hin : q.inDraw = true)
    (hpl : B.payload = .draw d) :
    gsk_gl_command_queue_end_draw q =
      (if d.vboCount = 0 then { q with batches := l, inDraw := false }
      else
        let snapU := (q.pendingUniforms.filter fun pu => pu.1 == B.program).map Prod.snd
        let binds := changedBinds q.textures
        let d1 : GskGLCommandDraw :=
          { framebuffer := q.fboId
            uniformOffset := q.batchUniforms.length
            uniformCount := snapU.length % 2 ^ 11
            bindOffset := q.batchBinds.length
            bindCount := binds.length % 2 ^ 5
            vboCount := d.vboCount
            vboOffset := d.vboOffset }
        let batch1 := { B with payload := GskGLCommandPayload.draw d1 }
        let q1 : GskGLCommandQueue :=
          { q with
            fboChanged := false
            batchUniforms := q.batchUniforms ++ snapU
            pendingUniforms := q.pendingUniforms.filter fun pu => ¬ pu.1 == B.program
            batchBinds := q.batchBinds ++ binds
            textures := q.textures.map fun t =>
              if t.changed && 0 < t.id then { t with changed := false } else t
            batches := l ++ [batch1] }
        match l.getLast? with
        | some lb =>
          match lb.payload with
          | .draw ld =>
            if can_merge lb ld batch1 d1 then
              { q1 with
                batches := l.set (l.length - 1) (mergedBatch lb ld d1.vboCount)
                inDraw := false }
            else { (enqueue_batch q1) with inDraw := false }
          | _ => { (enqueue_batch q1) with inDraw := false }
        | none => { (enqueue_batch q1) with inDraw := false }) := by
  have hgdB : q.batches.getD (q.batches.length - 1) default = B := by
    rw [hbatches]
    simp [List.getD_eq_getElem?_getD]
  have hne : q.batches.length ≠ 0 := by rw [hbatches]; simp
  rw [gsk_gl_command_queue_end_draw]
  rw [if_neg (by simp [hne, hin])]
  dsimp only
  rw [hgdB, hpl]
  dsimp only
  by_cases hd0 : d.vboCount = 0
  · rw [if_pos hd0, if_pos hd0]
    simp [discard_batch, hbatches, List.dropLast_concat]
  · rw [if_neg hd0, if_neg hd0]
    rw [hbatches]
    simp only [List.length_append, List.length_singleton, Nat.add_sub_cancel,
      set_concat_self]
    have e5 : l.length + 1 - 2 = l.length - 1 := by omega
    rw [e5]
    cases l with
    | nil =>
      rw [if_neg (by simp)]
      rfl
    | cons a as =>
      rw [if_pos (by simp)]
      have hlt2 : (a :: as).length - 1 < (a :: as).length :=
        Nat.sub_lt (by simp) one_pos
      rw [getD_concat_lt _ _ _ _ hlt2]
      rw [getLast?_eq_getD (a :: as) (by simp)]
      dsimp only
      cases hlp : ((a :: as).getD ((a :: as).length - 1) default).payload with
      | draw ld =>
        dsimp only
        split
        next =>
          simp only [List.set_append_left _ _ hlt2, List.dropLast_concat,
            mergedBatch]
        next => rfl
      | clear bits fb => rfl
      | pushDebugGroup lab => rfl
      | popDebugGroup => rfl

end GskGL


namespace GskGL

theorem recordDraw_merge_shape
    (q : GskGLCommandQueue) (p vw vh k : Nat)
    (hin : q.inDraw = false) (hk0 : 0 < k)
    (hk : GSK_GL_N_VERTICES * k < 2 ^ 16)
    (lb : GskGLCommandBatch) (ld : GskGLCommandDraw)
    (hlast : q.batches.getLast? = some lb) (hlb : lb.payload = .draw ld)
    (h1 : lb.program = p % 2 ^ 24)
    (h2 : lb.viewportWidth = vw % 2 ^ 16)
    (h3 : lb.viewportHeight = vh % 2 ^ 16)
    (h4 : ld.framebuffer = q.fboId)
    (h5 : q.pendingUniforms.filter (fun pu => pu.1 == p % 2 ^ 24) = [])
    (h6 : changedBinds q.textures = [])
    (h7 : ld.vboOffset + ld.vboCount = q.verticesLen) :
    (recordDraw q p vw vh k).batches.length = q.batches.length ∧
    (recordDraw q p vw vh k).tailBatchIndex = q.tailBatchIndex ∧
    (recordDraw q p vw vh k).batches.getLast? =
      some (mergedBatch lb ld (GSK_GL_N_VERTICES * k)) ∧
    (recordDraw q p vw vh k).inDraw = false := by
  have hq : q.batches ≠ [] := by
    intro h; rw [h] at hlast; simp at hlast
  have hk6 : GSK_GL_N_VERTICES * k ≠ 0 := by
    simp [GSK_GL_N_VERTICES]; omega
  rw [recordDraw, state_after_adds q p vw vh k hin hk]
  rw [end_draw_decomposed q.batches (openBatch q p vw vh (GSK_GL_N_VERTICES * k)) _ _ rfl rfl rfl]
  rw [if_neg hk6]
  dsimp only [openBatch]
  rw [hlast]
  dsimp only
  rw [hlb]
  dsimp only
  rw [if_pos (by
    simp only [can_merge, h1, h2, h3, h4, h5, h6, h7, List.map_nil,
      List.length_nil, Nat.zero_mod, beq_self_eq_true, Bool.and_self,
      Bool.and_true, Bool.true_and])]
  refine ⟨by simp, rfl, ?_, rfl⟩
  exact getLast?_set_last _ _ hq

end GskGL


namespace GskGL

/-- The freshly linked Draw batch as `end_draw` appends it when the merge
conditions do not hold. -/
def linkedBatch (q : GskGLCommandQueue) (p vw vh c : Nat) :
    GskGLCommandBatch :=
  { program := p % 2 ^ 24
    nextBatchIndex := -1
    viewportWidth := vw % 2 ^ 16
    viewportHeight := vh % 2 ^ 16
    payload := .draw
      { framebuffer := q.fboId
        uniformCount :=
          ((q.pendingUniforms.filter fun pu => pu.1 == p % 2 ^ 24).map
            Prod.snd).length % 2 ^ 11
        bindCount := (changedBinds q.textures).length % 2 ^ 5
        vboCount := c
        vboOffset := q.verticesLen
        uniformOffset := q.batchUniforms.length
        bindOffset := q.batchBinds.length } }

theorem enqueue_observables (q1 : GskGLCommandQueue)
    (l : List GskGLCommandBatch) (b1 : GskGLCommandBatch)
    (hb : q1.batches = l ++ [b1])
    (htail : q1.tailBatchIndex = -1 ∨
      (0 ≤ q1.tailBatchIndex ∧ q1.tailBatchIndex < (l.length : Int))) :
    (enqueue_batch q1).batches.length = l.length + 1 ∧
    (enqueue_batch q1).tailBatchIndex = (l.length : Int) ∧
    (enqueue_batch q1).batches.getLast? = some b1 := by
  rcases htail with ht | ⟨ht0, htl⟩
  · simp [enqueue_batch, ht, hb]
  · have hne : ¬ q1.tailBatchIndex = -1 := by omega
    have htn : q1.tailBatchIndex.toNat < l.length := by omega
    simp only [enqueue_batch, hne, if_false, hb, ite_false]
    refine ⟨by simp, ?_, ?_⟩
    · simp
    · rw [List.set_append_left _ _ htn]
      exact List.getLast?_concat _

end GskGL


namespace GskGL

theorem recordDraw_link_shape
    (q : GskGLCommandQueue) (p vw vh k : Nat)
    (hin : q.inDraw = false) (hk0 : 0 < k)
    (hk : GSK_GL_N_VERTICES * k < 2 ^ 16)
    (htail : q.tailBatchIndex = -1 ∨
      (0 ≤ q.tailBatchIndex ∧ q.tailBatchIndex < (q.batches.length : Int)))
    (hu : (q.pendingUniforms.filter fun pu => pu.1 == p % 2 ^ 24).length < 2 ^ 11)
    (hbc : (changedBinds q.textures).length < 2 ^ 5)
    (hnc : ¬ MergeCond q p vw vh) :
    (recordDraw q p vw vh k).batches.length = q.batches.length + 1 ∧
    (recordDraw q p vw vh k).tailBatchIndex = (q.batches.length : Int) ∧
    (recordDraw q p vw vh k).batches.getLast? =
      some (linkedBatch q p vw vh (GSK_GL_N_VERTICES * k)) ∧
    (recordDraw q p vw vh k).inDraw = false := by
  have hk6 : GSK_GL_N_VERTICES * k ≠ 0 := by
    simp [GSK_GL_N_VERTICES]; omega
  rw [recordDraw, state_after_adds q p vw vh k hin hk]
  rw [end_draw_decomposed q.batches
    (openBatch q p vw vh (GSK_GL_N_VERTICES * k)) _ _ rfl rfl rfl]
  rw [if_neg hk6]
  dsimp only [openBatch]
  cases hlast : q.batches.getLast? with
  | none =>
    dsimp only
    exact ⟨(enqueue_observables _ _ _ rfl (by exact htail)).1,
      (enqueue_observables _ _ _ rfl (by exact htail)).2.1,
      (enqueue_observables _ _ _ rfl (by exact htail)).2.2, rfl⟩
  | some lb =>
    dsimp only
    cases hlb : lb.payload with
    | draw ld =>
      dsimp only
      split
      next hcmT =>
        simp only [can_merge, Bool.and_eq_true, beq_iff_eq] at hcmT
        obtain ⟨⟨⟨⟨⟨⟨c1, c2⟩, c3⟩, c4⟩, c5⟩, c6⟩, c7⟩ := hcmT
        rw [List.length_map, Nat.mod_eq_of_lt hu] at c5
        rw [Nat.mod_eq_of_lt hbc] at c6
        exact absurd ⟨lb, ld, hlast, hlb, c1, c2, c3, c4,
          List.length_eq_zero.mp c5, List.length_eq_zero.mp c6, c7⟩ hnc
      next hcmF =>
        exact ⟨(enqueue_observables _ _ _ rfl (by exact htail)).1,
          (enqueue_observables _ _ _ rfl (by exact htail)).2.1,
          (enqueue_observables _ _ _ rfl (by exact htail)).2.2, rfl⟩
    | clear bits fb =>
      exact ⟨(enqueue_observables _ _ _ rfl (by exact htail)).1,
        (enqueue_observables _ _ _ rfl (by exact htail)).2.1,
        (enqueue_observables _ _ _ rfl (by exact htail)).2.2, rfl⟩
    | pushDebugGroup lab =>
      exact ⟨(enqueue_observables _ _ _ rfl (by exact htail)).1,
        (enqueue_observables _ _ _ rfl (by exact htail)).2.1,
        (enqueue_observables _ _ _ rfl (by exact htail)).2.2, rfl⟩
    | popDebugGroup =>
      exact ⟨(enqueue_observables _ _ _ rfl (by exact htail)).1,
        (enqueue_observables _ _ _ rfl (by exact htail)).2.1,
        (enqueue_observables _ _ _ rfl (by exact htail)).2.2, rfl⟩

end GskGL


namespace GskGL

/-- The queue state after recording one or more mutually mergeable draw
brackets on a fresh queue: a single linked Draw batch holding the entire
contiguous vertex range. -/
def stateAfter (f : Nat) (m : Int) (p vw vh total : Nat) : GskGLCommandQueue :=
  { batches := [{ program := p % 2 ^ 24
                  nextBatchIndex := -1
                  viewportWidth := vw % 2 ^ 16
                  viewportHeight := vh % 2 ^ 16
                  payload := .draw
                    { framebuffer := f
                      uniformCount := 0
                      bindCount := 0
                      vboCount := total
                      vboOffset := 0
                      uniformOffset := 0
                      bindOffset := 0 } }]
    tailBatchIndex := 0
    inDraw := false
    batchUniforms := []
    batchBinds := []
    verticesLen := total
    vboData := List.replicate total none
    fboId := f
    fboChanged := false
    textures := []
    pendingUniforms := []
    maxTextureSize := m
    nextTextureId := 1
    nextFramebufferId := 1
    savedState := [] }

theorem recordDraw_init (f : Nat) (m : Int) (p vw vh k : Nat)
    (hk0 : 0 < k) (hk : GSK_GL_N_VERTICES * k < 2 ^ 16) :
    recordDraw (GskGLCommandQueue.init f [] [] m) p vw vh k =
      stateAfter f m p vw vh (GSK_GL_N_VERTICES * k) := by
  have hk6 : GSK_GL_N_VERTICES * k ≠ 0 := by
    simp [GSK_GL_N_VERTICES]; omega
  rw [recordDraw,
    state_after_adds (GskGLCommandQueue.init f [] [] m) p vw vh k rfl hk]
  rw [end_draw_decomposed []
    (openBatch (GskGLCommandQueue.init f [] [] m) p vw vh
      (GSK_GL_N_VERTICES * k)) _ _ rfl rfl rfl]
  rw [if_neg hk6]
  simp [openBatch, enqueue_batch, stateAfter, GskGLCommandQueue.init,
    changedBinds]

theorem recordDraw_step (f : Nat) (m : Int) (p vw vh total k : Nat)
    (hk0 : 0 < k) (htot : GSK_GL_N_VERTICES * k + total < 2 ^ 16) :
    recordDraw (stateAfter f m p vw vh total) p vw vh k =
      stateAfter f m p vw vh (total + GSK_GL_N_VERTICES * k) := by
  have hk6 : GSK_GL_N_VERTICES * k ≠ 0 := by
    simp [GSK_GL_N_VERTICES]; omega
  have hk2 : GSK_GL_N_VERTICES * k < 2 ^ 16 := by omega
  rw [recordDraw,
    state_after_adds (stateAfter f m p vw vh total) p vw vh k rfl hk2]
  rw [end_draw_decomposed (stateAfter f m p vw vh total).batches
    (openBatch (stateAfter f m p vw vh total) p vw vh
      (GSK_GL_N_VERTICES * k)) _ _ rfl rfl rfl]
  rw [if_neg hk6]
  simp only [stateAfter, openBatch, changedBinds, List.filter_nil,
    List.map_nil, List.getLast?_singleton, List.length_nil]
  rw [if_pos (by simp [can_merge])]
  have htot2 : total + GSK_GL_N_VERTICES * k < 65536 := by
    have h216 : (2 : Nat) ^ 16 = 65536 := by norm_num
    omega
  simp [mergedBatch, Nat.mod_eq_of_lt htot2, ← List.replicate_add]

end GskGL


namespace GskGL

theorem foldl_recordDraw (f : Nat) (m : Int) (p vw vh : Nat)
    (ks : List Nat) :
    ∀ (total : Nat), (∀ x ∈ ks, 0 < x) →
      GSK_GL_N_VERTICES * ks.sum + total < 2 ^ 16 →
      ks.foldl (fun q k => recordDraw q p vw vh k)
          (stateAfter f m p vw vh total)
        = stateAfter f m p vw vh (total + GSK_GL_N_VERTICES * ks.sum) := by
  induction ks with
  | nil => intro total _ _; simp
  | cons k ks ih =>
    intro total hpos hsum
    have hma : GSK_GL_N_VERTICES * (k :: ks).sum
        = GSK_GL_N_VERTICES * k + GSK_GL_N_VERTICES * ks.sum := by
      simp [List.sum_cons, Nat.mul_add]
    rw [List.foldl_cons]
    rw [recordDraw_step f m p vw vh total k (hpos k (by simp)) (by omega)]
    rw [ih (total + GSK_GL_N_VERTICES * k)
      (fun x hx => hpos x (by simp [hx])) (by omega)]
    congr 1
    omega

/-- C1: a draw ended by `end_draw` is merged into the immediately
preceding batch (the earlier batch's vertex count extended, the later
batch discarded, the batch count and tail unchanged) exactly when the
preceding batch is a Draw with the same program, viewport and
framebuffer, the new draw snapshotted zero uniform and zero bind changes,
and the new draw's vertex-buffer offset equals the preceding batch's
offset plus count; if any condition fails the new draw is linked as a
separate batch (batch count increases by one).  N consecutive mergeable
draws recorded on a fresh queue yield a single batch whose vertex count
is the sum of the individual counts. -/
theorem end_draw_merges_exactly_under_adjacency :
    (∀ (q : GskGLCommandQueue) (p vw vh k : Nat),
      q.inDraw = false → 0 < k → GSK_GL_N_VERTICES * k < 2 ^ 16 →
      (q.tailBatchIndex = -1 ∨
        (0 ≤ q.tailBatchIndex ∧ q.tailBatchIndex < (q.batches.length : Int))) →
      (q.pendingUniforms.filter fun pu => pu.1 == p % 2 ^ 24).length < 2 ^ 11 →
      (changedBinds q.textures).length < 2 ^ 5 →
      (MergeCond q p vw vh →
        (recordDraw q p vw vh k).batches.length = q.batches.length ∧
        (recordDraw q p vw vh k).tailBatchIndex = q.tailBatchIndex ∧
        (recordDraw q p vw vh k).inDraw = false ∧
        ∀ lb ld, q.batches.getLast? = some lb →
          lb.payload = GskGLCommandPayload.draw ld →
          ld.vboCount + GSK_GL_N_VERTICES * k < 2 ^ 16 →
          (recordDraw q p vw vh k).batches.getLast? =
            some { lb with payload := GskGLCommandPayload.draw { ld with vboCount := ld.vboCount + GSK_GL_N_VERTICES * k } }) ∧
      (¬ MergeCond q p vw vh →
        (recordDraw q p vw vh k).batches.length = q.batches.length + 1 ∧
        (recordDraw q p vw vh k).tailBatchIndex = (q.batches.length : Int) ∧
        (recordDraw q p vw vh k).batches.getLast? =
          some (linkedBatch q p vw vh (GSK_GL_N_VERTICES * k)) ∧
        (recordDraw q p vw vh k).inDraw = false)) ∧
    (∀ (f : Nat) (m : Int) (p vw vh : Nat) (ks : List Nat),
      ks ≠ [] → (∀ x ∈ ks, 0 < x) →
      GSK_GL_N_VERTICES * ks.sum < 2 ^ 16 →
      ∃ b d,
        (ks.foldl (fun q k => recordDraw q p vw vh k)
            (GskGLCommandQueue.init f [] [] m)).batches = [b] ∧
        b.payload = GskGLCommandPayload.draw d ∧
        d.vboCount = GSK_GL_N_VERTICES * ks.sum) := by
  constructor
  · intro q p vw vh k hin hk0 hk htail hu hbc
    constructor
    · intro hm
      obtain ⟨lb0, ld0, hlast0, hlb0, h1, h2, h3, h4, h5, h6, h7⟩ := hm
      obtain ⟨e1, e2, e3, e4⟩ := recordDraw_merge_shape q p vw vh k hin hk0 hk
        lb0 ld0 hlast0 hlb0 h1 h2 h3 h4 h5 h6 h7
      refine ⟨e1, e2, e4, ?_⟩
      intro lb ld hl hpl hsum
      rw [hl] at hlast0
      injection hlast0 with heq
      subst heq
      rw [hpl] at hlb0
      injection hlb0 with heqd
      subst heqd
      rw [e3, mergedBatch, Nat.mod_eq_of_lt hsum]
    · intro hnc
      exact recordDraw_link_shape q p vw vh k hin hk0 hk htail hu hbc hnc
  · intro f m p vw vh ks hne hpos hsum
    cases ks with
    | nil => exact absurd rfl hne
    | cons k ks =>
      have hma : GSK_GL_N_VERTICES * (k :: ks).sum
          = GSK_GL_N_VERTICES * k + GSK_GL_N_VERTICES * ks.sum := by
        simp [List.sum_cons, Nat.mul_add]
      rw [List.foldl_cons]
      rw [recordDraw_init f m p vw vh k (hpos k (by simp)) (by omega)]
      rw [foldl_recordDraw f m p vw vh ks (GSK_GL_N_VERTICES * k)
        (fun x hx => hpos x (by simp [hx])) (by omega)]
      simp only [stateAfter]
      exact ⟨_, _, rfl, rfl, by dsimp only; omega⟩

end GskGL

namespace GskGL

/-- Witness for C1: on a fresh queue holding one draw batch of six
vertices, a second mergeable draw keeps the batch count at one; and two
brackets of one quantum each fold to a single batch of twelve vertices. -/
theorem end_draw_merges_exactly_under_adjacency_witness :
    (recordDraw (stateAfter 0 4096 5 800 600 6) 5 800 600 1).batches.length = 1 ∧
    (∃ b d,
      ([1, 1].foldl (fun q k => recordDraw q 5 800 600 k)
          (GskGLCommandQueue.init 0 [] [] 4096)).batches = [b] ∧
      b.payload = GskGLCommandPayload.draw d ∧ d.vboCount = 12) := by
  constructor
  · exact ((end_draw_merges_exactly_under_adjacency.1
      (stateAfter 0 4096 5 800 600 6) 5 800 600 1 rfl (by decide) (by decide)
      (Or.inr (by decide)) (by decide) (by decide)).1
      ⟨_, _, rfl, rfl, rfl, rfl, rfl, rfl, rfl, rfl, rfl⟩).1
  · exact end_draw_merges_exactly_under_adjacency.2 0 4096 5 800 600 [1, 1]
      (by decide) (by decide) (by decide)

end GskGL

namespace GskGL

/-- Witness for C5: an empty bracket on a fresh queue returns exactly the
initial queue. -/
theorem end_draw_empty_bracket_is_noop_witness :
    gsk_gl_command_queue_end_draw
      (gsk_gl_command_queue_begin_draw
        (GskGLCommandQueue.init 0 [] [] 4096) 1 2 3)
      = GskGLCommandQueue.init 0 [] [] 4096 :=
  end_draw_empty_bracket_is_noop (GskGLCommandQueue.init 0 [] [] 4096) 1 2 3 rfl

/-- Witness for C10: on a freshly begun draw, one sourceless call
reserves six vertices and returns offset 0; two calls in a bracket give a
twelve-vertex batch. -/
theorem add_vertices_reserves_quantum_witness :
    (gsk_gl_command_queue_add_vertices
        (gsk_gl_command_queue_begin_draw
          (GskGLCommandQueue.init 0 [] [] 4096) 1 800 600) none).1.verticesLen = 6 ∧
    (gsk_gl_command_queue_add_vertices
        (gsk_gl_command_queue_begin_draw
          (GskGLCommandQueue.init 0 [] [] 4096) 1 800 600) none).2 = some 0 ∧
    (∃ b d,
      (addVerticesIter (gsk_gl_command_queue_begin_draw
          (GskGLCommandQueue.init 0 [] [] 4096) 1 800 600) 2).batches.getLast?
        = some b ∧
      b.payload = GskGLCommandPayload.draw d ∧ d.vboCount = 12) := by
  have h := add_vertices_reserves_quantum.1
    (gsk_gl_command_queue_begin_draw (GskGLCommandQueue.init 0 [] [] 4096) 1 800 600)
    none
    { framebuffer := 0, uniformCount := 0, bindCount := 0, vboCount := 0,
      vboOffset := 0, uniformOffset := 0, bindOffset := 0 }
    rfl rfl
  have h2 := add_vertices_reserves_quantum.2
    (GskGLCommandQueue.init 0 [] [] 4096) 1 800 600 2 rfl (by decide)
  exact ⟨h.1, h.2.2.2.1 rfl, h2⟩

end GskGL


namespace GskGL

/-- The record operations of a frame, as listed by the spec: draw
brackets, clears and debug groups, plus vertex reservation and
framebuffer binding. -/
inductive RecordOp where
  | beginDraw (program vw vh : Nat)
  | endDraw
  | addVerts (src : Option (List GskGLDrawVertex))
  | clearOp (bits vw vh : Nat)
  | pushDebug (label : String)
  | popDebug
  | bindFramebuffer (fb : Nat)

def applyOp (q : GskGLCommandQueue) : RecordOp → GskGLCommandQueue
  | .beginDraw program vw vh => gsk_gl_command_queue_begin_draw q program vw vh
  | .endDraw => gsk_gl_command_queue_end_draw q
  | .addVerts src => (gsk_gl_command_queue_add_vertices q src).1
  | .clearOp bits vw vh => gsk_gl_command_queue_clear q bits vw vh
  | .pushDebug label => gsk_gl_command_queue_push_debug_group q label
  | .popDebug => gsk_gl_command_queue_pop_debug_group q
  | .bindFramebuffer fb => gsk_gl_command_queue_bind_framebuffer q fb

def applyOps (q : GskGLCommandQueue) (ops : List RecordOp) : GskGLCommandQueue :=
  ops.foldl applyOp q

/-- Every linked batch points strictly forward in the dense array (or is
terminal): the strengthened acyclicity invariant. -/
def nextOk (l : List GskGLCommandBatch) : Prop :=
  ∀ i, i < l.length → batchNext l i = -1 ∨
    ((i : Int) < batchNext l i ∧ batchNext l i < (l.length : Int))

/-- The tail index is either the sentinel or a valid terminal batch. -/
def tailOk (q : GskGLCommandQueue) : Prop :=
  q.tailBatchIndex = -1 ∨
    (0 ≤ q.tailBatchIndex ∧ q.tailBatchIndex < (q.batches.length : Int) ∧
     batchNext q.batches q.tailBatchIndex.toNat = -1)

/-- While a draw bracket is open, the open batch sits unlinked at the end
of the array: it is a Draw, nothing points at it, and the tail precedes
it. -/
def openOk (q : GskGLCommandQueue) : Prop :=
  0 < q.batches.length ∧
  (∃ d, (q.batches.getD (q.batches.length - 1) default).payload
      = GskGLCommandPayload.draw d) ∧
  batchNext q.batches (q.batches.length - 1) = -1 ∧
  q.tailBatchIndex < (q.batches.length : Int) - 1 ∧
  (∀ i, i < q.batches.length →
    batchNext q.batches i = -1 ∨
    batchNext q.batches i < (q.batches.length : Int) - 1)

def Inv (q : GskGLCommandQueue) : Prop :=
  nextOk q.batches ∧ tailOk q ∧ (q.inDraw = true → openOk q)

theorem Inv_init (f : Nat) (texs : List GskGLBindTexture)
    (pend : List (Nat × GskGLCommandUniform)) (m : Int) :
    Inv (GskGLCommandQueue.init f texs pend m) := by
  refine ⟨?_, Or.inl rfl, ?_⟩
  · intro i hi; simp [GskGLCommandQueue.init] at hi
  · intro h; simp [GskGLCommandQueue.init] at h

theorem nextOk_append (l : List GskGLCommandBatch) (b : GskGLCommandBatch)
    (hb : b.nextBatchIndex = -1) (h : nextOk l) : nextOk (l ++ [b]) := by
  intro i hi
  simp only [List.length_append, List.length_singleton] at hi
  rcases Nat.lt_or_ge i l.length with hlt | hge
  · rw [batchNext_append_lt _ _ _ hlt]
    rcases h i hlt with h1 | ⟨h2, h3⟩
    · exact Or.inl h1
    · refine Or.inr ⟨h2, ?_⟩
      simp only [List.length_append, List.length_singleton]
      push_cast
      omega
  · have hieq : i = l.length := by omega
    subst hieq
    rw [batchNext_append_last _ _, hb]
    exact Or.inl rfl

theorem Inv_enqueue (q1 : GskGLCommandQueue) (l : List GskGLCommandBatch)
    (b : GskGLCommandBatch)
    (hbat : q1.batches = l ++ [b])
    (hb : b.nextBatchIndex = -1)
    (hnx : nextOk l)
    (ht : q1.tailBatchIndex = -1 ∨
      (0 ≤ q1.tailBatchIndex ∧ q1.tailBatchIndex < (l.length : Int) ∧
       batchNext l q1.tailBatchIndex.toNat = -1)) :
    nextOk (enqueue_batch q1).batches ∧
    (enqueue_batch q1).tailBatchIndex = (l.length : Int) ∧
    batchNext (enqueue_batch q1).batches l.length = -1 ∧
    (enqueue_batch q1).batches.length = l.length + 1 := by
  rcases ht with ht1 | ⟨ht0, htlt, htn⟩
  · simp only [enqueue_batch, ht1, if_true, hbat]
    refine ⟨nextOk_append l b hb hnx, ?_, ?_, by simp⟩
    · simp only [List.length_append, List.length_singleton]
      push_cast
      ring
    · rw [batchNext_append_last _ _, hb]
  · have hne : ¬ q1.tailBatchIndex = -1 := by omega
    have htnat : q1.tailBatchIndex.toNat < l.length := by omega
    simp only [enqueue_batch, hne, if_false, ite_false, hbat]
    refine ⟨?_, ?_, ?_, by simp⟩
    · intro i hi
      simp only [List.length_set, List.length_append, List.length_singleton] at hi ⊢
      by_cases hit : i = q1.tailBatchIndex.toNat
      · subst hit
        rw [batchNext_set_self _ _ _ (by simp; omega)]
        refine Or.inr ⟨?_, ?_⟩
        · simp only [List.length_append, List.length_singleton]
          push_cast
          omega
        · simp only [List.length_append, List.length_singleton]
          push_cast
          omega
      · rw [batchNext_set_ne _ _ _ _ (fun he => hit he.symm)]
        have := nextOk_append l b hb hnx i (by simp; omega)
        rcases this with h1 | ⟨h2, h3⟩
        · exact Or.inl h1
        · refine Or.inr ⟨h2, ?_⟩
          simp only [List.length_append, List.length_singleton] at h3
          push_cast at h3 ⊢
          omega
    · simp only [List.length_append, List.length_singleton]
      push_cast
      ring
    · rw [batchNext_set_ne _ _ _ _ (by omega)]
      rw [batchNext_append_last _ _, hb]

theorem Inv_link_op (q : GskGLCommandQueue) (b : GskGLCommandBatch)
    (hb : b.nextBatchIndex = -1) (h : Inv q) :
    nextOk (enqueue_batch { q with batches := q.batches ++ [b] }).batches ∧
    tailOk (enqueue_batch { q with batches := q.batches ++ [b] }) := by
  have ht : q.tailBatchIndex = -1 ∨
      (0 ≤ q.tailBatchIndex ∧ q.tailBatchIndex < (q.batches.length : Int) ∧
       batchNext q.batches q.tailBatchIndex.toNat = -1) := h.2.1
  obtain ⟨e1, e2, e3, e4⟩ :=
    Inv_enqueue { q with batches := q.batches ++ [b] } q.batches b rfl hb h.1 ht
  refine ⟨e1, Or.inr ⟨?_, ?_, ?_⟩⟩
  · rw [e2]; positivity
  · rw [e2, e4]
    omega
  · rw [e2, Int.toNat_natCast]; exact e3

theorem Inv_append_open (q : GskGLCommandQueue) (b : GskGLCommandBatch)
    (d : GskGLCommandDraw) (hb : b.nextBatchIndex = -1)
    (hpl : b.payload = GskGLCommandPayload.draw d) (h : Inv q) :
    Inv { q with batches := q.batches ++ [b], inDraw := true } := by
  obtain ⟨hnx, htl, _⟩ := h
  refine ⟨nextOk_append _ _ hb hnx, ?_, ?_⟩
  · dsimp only [tailOk]
    rcases htl with h1 | ⟨h2, h3, h4⟩
    · exact Or.inl h1
    · refine Or.inr ⟨h2, ?_, ?_⟩
      · simp only [List.length_append, List.length_singleton]
        push_cast
        omega
      · rw [batchNext_append_lt _ _ _ (by omega)]
        exact h4
  · intro _
    dsimp only [openOk]
    refine ⟨by simp, ?_, ?_, ?_, ?_⟩
    · refine ⟨d, ?_⟩
      simp only [List.length_append, List.length_singleton, Nat.add_sub_cancel]
      rw [getD_concat_self]
      exact hpl
    · simp only [List.length_append, List.length_singleton, Nat.add_sub_cancel]
      rw [batchNext_append_last]
      exact hb
    · rcases htl with h1 | ⟨h2, h3, h4⟩
      · rw [h1]
        simp only [List.length_append, List.length_singleton]
        push_cast
        omega
      · simp only [List.length_append, List.length_singleton]
        push_cast
        omega
    · intro i hi
      simp only [List.length_append, List.length_singleton] at hi
      rcases Nat.lt_or_ge i q.batches.length with hlt | hge
      · rw [batchNext_append_lt _ _ _ hlt]
        rcases hnx i hlt with h1 | ⟨h2, h3⟩
        · exact Or.inl h1
        · refine Or.inr ?_
          simp only [List.length_append, List.length_singleton]
          push_cast
          omega
      · have hieq : i = q.batches.length := by omega
        subst hieq
        rw [batchNext_append_last, hb]
        exact Or.inl rfl

theorem Inv_enqueue_close (q1 : GskGLCommandQueue)
    (l : List GskGLCommandBatch) (b : GskGLCommandBatch)
    (hbat : q1.batches = l ++ [b])
    (hb : b.nextBatchIndex = -1)
    (hnx : nextOk l)
    (ht : q1.tailBatchIndex = -1 ∨
      (0 ≤ q1.tailBatchIndex ∧ q1.tailBatchIndex < (l.length : Int) ∧
       batchNext l q1.tailBatchIndex.toNat = -1)) :
    Inv { (enqueue_batch q1) with inDraw := false } := by
  obtain ⟨e1, e2, e3, e4⟩ := Inv_enqueue q1 l b hbat hb hnx ht
  refine ⟨e1, ?_, fun hc => nomatch hc⟩
  dsimp only [tailOk]
  refine Or.inr ⟨?_, ?_, ?_⟩
  · rw [e2]; positivity
  · rw [e2, e4]
    push_cast
    omega
  · rw [e2, Int.toNat_natCast]; exact e3

theorem Inv_applyOp (q : GskGLCommandQueue) (op : RecordOp) (h : Inv q) :
    Inv (applyOp q op) := by
  cases op with
  | bindFramebuffer fb =>
    simp only [applyOp, gsk_gl_command_queue_bind_framebuffer]
    split
    · exact h
    · exact ⟨h.1, h.2.1, fun hc => h.2.2 hc⟩
  | pushDebug label =>
    simp only [applyOp, gsk_gl_command_queue_push_debug_group]
    split
    next => exact h
    next hg =>
      have hid : q.inDraw = false := by
        cases hq : q.inDraw
        · rfl
        · exact absurd (Or.inl hq) hg
      obtain ⟨e1, e2⟩ := Inv_link_op q
        { program := 0, nextBatchIndex := -1, viewportWidth := 0,
          viewportHeight := 0,
          payload := GskGLCommandPayload.pushDebugGroup label } rfl h
      exact ⟨e1, e2, fun hc => absurd (hid.symm.trans hc) (by decide)⟩
  | popDebug =>
    simp only [applyOp, gsk_gl_command_queue_pop_debug_group]
    split
    next => exact h
    next hg =>
      have hid : q.inDraw = false := by
        cases hq : q.inDraw
        · rfl
        · exact absurd (Or.inl hq) hg
      obtain ⟨e1, e2⟩ := Inv_link_op q
        { program := 0, nextBatchIndex := -1, viewportWidth := 0,
          viewportHeight := 0,
          payload := GskGLCommandPayload.popDebugGroup } rfl h
      exact ⟨e1, e2, fun hc => absurd (hid.symm.trans hc) (by decide)⟩
  | clearOp bits vw vh =>
    simp only [applyOp, gsk_gl_command_queue_clear]
    split
    next => exact h
    next hg =>
      have hid : q.inDraw = false := by
        cases hq : q.inDraw
        · rfl
        · exact absurd (Or.inl hq) hg
      obtain ⟨e1, e2⟩ := Inv_link_op q
        { program := 0, nextBatchIndex := -1, viewportWidth := vw % 2 ^ 16,
          viewportHeight := vh % 2 ^ 16,
          payload := GskGLCommandPayload.clear
            (if bits = 0 then
              GL_COLOR_BUFFER_BIT ||| GL_DEPTH_BUFFER_BIT |||
                GL_STENCIL_BUFFER_BIT
            else bits) q.fboId } rfl h
      exact ⟨e1, e2, fun hc => absurd (hid.symm.trans hc) (by decide)⟩
  | beginDraw program vw vh =>
    simp only [applyOp, gsk_gl_command_queue_begin_draw]
    split
    next => exact h
    next hg => exact Inv_append_open q _ _ rfl rfl h
  | addVerts src =>
    simp only [applyOp, gsk_gl_command_queue_add_vertices]
    split
    next => exact h
    next hg =>
      have hid : q.inDraw = true := by
        cases hq : q.inDraw
        · exact absurd hq hg
        · rfl
      obtain ⟨hlen, ⟨d0, hd0⟩, hnext, htl, hnoptr⟩ := h.2.2 hid
      rw [hd0]
      have hlt : q.batches.length - 1 < q.batches.length :=
        Nat.sub_lt hlen one_pos
      have hbn : ∀ i, batchNext (q.batches.set (q.batches.length - 1)
          { q.batches.getD (q.batches.length - 1) default with
            payload := GskGLCommandPayload.draw
              { d0 with vboCount := (d0.vboCount + GSK_GL_N_VERTICES) % 2 ^ 16 } }) i
          = batchNext q.batches i := by
        intro i
        by_cases hieq : q.batches.length - 1 = i
        · subst hieq
          rw [batchNext_set_self _ _ _ hlt]
          rfl
        · rw [batchNext_set_ne _ _ _ _ hieq]
      cases src with
      | none =>
        dsimp only
        refine ⟨?_, ?_, ?_⟩
        · intro i hi
          simp only [List.length_set] at hi
          rw [hbn i]
          rcases h.1 i hi with h1 | h2
          · exact Or.inl h1
          · exact Or.inr (by simpa using h2)
        · rcases h.2.1 with h1 | ⟨h2, h3, h4⟩
          · exact Or.inl h1
          · exact Or.inr ⟨h2, by simpa using h3, by rw [hbn]; exact h4⟩
        · intro _
          refine ⟨by simpa using hlen, ?_, ?_, ?_, ?_⟩
          · refine ⟨{ d0 with vboCount := (d0.vboCount + GSK_GL_N_VERTICES) % 2 ^ 16 }, ?_⟩
            simp only [List.length_set]
            rw [List.getD_eq_getElem?_getD, List.getElem?_set_self hlt]
            rfl
          · simp only [List.length_set]
            rw [hbn]
            exact hnext
          · simpa using htl
          · intro i hi
            simp only [List.length_set] at hi ⊢
            rw [hbn i]
            exact hnoptr i hi
      | some vs =>
        dsimp only
        refine ⟨?_, ?_, ?_⟩
        · intro i hi
          simp only [List.length_set] at hi
          rw [hbn i]
          rcases h.1 i hi with h1 | h2
          · exact Or.inl h1
          · exact Or.inr (by simpa using h2)
        · rcases h.2.1 with h1 | ⟨h2, h3, h4⟩
          · exact Or.inl h1
          · exact Or.inr ⟨h2, by simpa using h3, by rw [hbn]; exact h4⟩
        · intro _
          refine ⟨by simpa using hlen, ?_, ?_, ?_, ?_⟩
          · refine ⟨{ d0 with vboCount := (d0.vboCount + GSK_GL_N_VERTICES) % 2 ^ 16 }, ?_⟩
            simp only [List.length_set]
            rw [List.getD_eq_getElem?_getD, List.getElem?_set_self hlt]
            rfl
          · simp only [List.length_set]
            rw [hbn]
            exact hnext
          · simpa using htl
          · intro i hi
            simp only [List.length_set] at hi ⊢
            rw [hbn i]
            exact hnoptr i hi
  | endDraw =>
    simp only [applyOp]
    by_cases hg : q.batches.length = 0 ∨ q.inDraw = false
    · rw [gsk_gl_command_queue_end_draw, if_pos hg]
      exact h
    · push_neg at hg
      obtain ⟨hlen0, hdrawT⟩ := hg
      have hid : q.inDraw = true := by
        cases hq : q.inDraw
        · exact absurd hq hdrawT
        · rfl
      obtain ⟨hlen, ⟨d0, hd0⟩, hnext, htl, hnoptr⟩ := h.2.2 hid
      have hqne : q.batches ≠ [] := by
        intro he; rw [he] at hlen; simp at hlen
      have hdec : q.batches
          = q.batches.dropLast ++ [q.batches.getD (q.batches.length - 1) default] := by
        conv_lhs => rw [← List.dropLast_append_getLast hqne]
        have h1 := List.getLast?_eq_getLast q.batches hqne
        have h2 := getLast?_eq_getD q.batches hqne
        rw [h1] at h2
        injection h2 with h3
        rw [h3]
      have hdllen : q.batches.dropLast.length = q.batches.length - 1 := by simp
      have hcast : (q.batches.dropLast.length : Int) = (q.batches.length : Int) - 1 := by
        rw [hdllen]; omega
      have hnxdl : nextOk q.batches.dropLast := by
        intro i hi
        rw [hdllen] at hi
        rw [batchNext_dropLast _ _ hi]
        rcases hnoptr i (by omega) with h1 | h2
        · exact Or.inl h1
        · rcases h.1 i (by omega) with h3 | ⟨h4, h5⟩
          · exact Or.inl h3
          · exact Or.inr ⟨h4, by rw [hcast]; exact h2⟩
      have htdl : q.tailBatchIndex = -1 ∨
          (0 ≤ q.tailBatchIndex ∧
           q.tailBatchIndex < (q.batches.dropLast.length : Int) ∧
           batchNext q.batches.dropLast q.tailBatchIndex.toNat = -1) := by
        rcases h.2.1 with h1 | ⟨h2, h3, h4⟩
        · exact Or.inl h1
        · refine Or.inr ⟨h2, by rw [hcast]; omega, ?_⟩
          rw [batchNext_dropLast _ _ (by omega)]
          exact h4
      rw [end_draw_decomposed q.batches.dropLast
        (q.batches.getD (q.batches.length - 1) default) d0 q hdec hid hd0]
      by_cases hvc : d0.vboCount = 0
      · rw [if_pos hvc]
        refine ⟨hnxdl, ?_, fun hc => nomatch hc⟩
        dsimp only [tailOk]
        rcases h.2.1 with h1 | ⟨h2, h3, h4⟩
        · exact Or.inl h1
        · refine Or.inr ⟨h2, by rw [hcast]; omega, ?_⟩
          rw [batchNext_dropLast _ _ (by omega)]
          exact h4
      · rw [if_neg hvc]
        dsimp only
        cases hdl : q.batches.dropLast.getLast? with
        | none =>
          dsimp only
          refine Inv_enqueue_close _ _ _ rfl ?_ hnxdl htdl
          exact hnext
        | some lb =>
          dsimp only
          have hlbgd : q.batches.dropLast.getD (q.batches.dropLast.length - 1) default = lb :=
            getD_last_of_getLast? _ _ hdl
          have hdlne : q.batches.dropLast ≠ [] := by
            intro he; rw [he] at hdl; simp at hdl
          have hdlpos : 0 < q.batches.dropLast.length := List.length_pos.mpr hdlne
          cases hlbp : lb.payload with
          | draw ld =>
            dsimp only
            split
            next hcm =>
              have hjlt : q.batches.dropLast.length - 1 < q.batches.dropLast.length :=
                Nat.sub_lt hdlpos one_pos
              have hmb : (mergedBatch lb ld d0.vboCount).nextBatchIndex
                  = batchNext q.batches.dropLast (q.batches.dropLast.length - 1) := by
                rw [← hlbgd]
                rfl
              refine ⟨?_, ?_, fun hc => nomatch hc⟩
              · intro i hi
                simp only [List.length_set] at hi
                by_cases hij : i = q.batches.dropLast.length - 1
                · subst hij
                  rw [batchNext_set_self _ _ _ hjlt]
                  rw [hmb]
                  rcases hnxdl _ hjlt with h1 | ⟨h2, h3⟩
                  · exact Or.inl h1
                  · exact Or.inr ⟨h2, by simpa using h3⟩
                · rw [batchNext_set_ne _ _ _ _ (fun he => hij he.symm)]
                  rcases hnxdl i hi with h1 | ⟨h2, h3⟩
                  · exact Or.inl h1
                  · exact Or.inr ⟨h2, by simpa using h3⟩
              · dsimp only [tailOk]
                rcases htdl with h1 | ⟨h2, h3, h4⟩
                · exact Or.inl h1
                · refine Or.inr ⟨h2, by simpa using h3, ?_⟩
                  by_cases hij : q.tailBatchIndex.toNat = q.batches.dropLast.length - 1
                  · rw [hij, batchNext_set_self _ _ _ hjlt]
                    rw [hmb, ← hij]
                    exact h4
                  · rw [batchNext_set_ne _ _ _ _ (fun he => hij he.symm)]
                    exact h4
            next hcm =>
              refine Inv_enqueue_close _ _ _ rfl ?_ hnxdl htdl
              exact hnext
          | clear bits fb =>
            refine Inv_enqueue_close _ _ _ rfl ?_ hnxdl htdl
            exact hnext
          | pushDebugGroup lab =>
            refine Inv_enqueue_close _ _ _ rfl ?_ hnxdl htdl
            exact hnext
          | popDebugGroup =>
            refine Inv_enqueue_close _ _ _ rfl ?_ hnxdl htdl
            exact hnext

theorem Inv_applyOps (q : GskGLCommandQueue) (ops : List RecordOp)
    (h : Inv q) : Inv (applyOps q ops) := by
  induction ops generalizing q with
  | nil => exact h
  | cons op ops ih => exact ih _ (Inv_applyOp q op h)

end GskGL


namespace GskGL

/-- The traversal of `gsk_gl_command_queue_execute`: follow
`next_batch_index` from a starting index, collecting the visited indices,
with explicit fuel. -/
def chase (l : List GskGLCommandBatch) : Nat → Int → List Nat
  | 0, _ => []
  | fuel + 1, i =>
    if 0 ≤ i ∧ i < (l.length : Int) then
      i.toNat :: chase l fuel (batchNext l i.toNat)
    else []

theorem chase_neg (l : List GskGLCommandBatch) (fuel : Nat) :
    chase l fuel (-1) = [] := by
  cases fuel with
  | zero => rfl
  | succ n =>
    rw [chase]
    rw [if_neg]
    intro ⟨h1, _⟩
    omega

theorem chase_mem_ge (l : List GskGLCommandBatch) (hnx : nextOk l) :
    ∀ (fuel : Nat) (i : Int) (x : Nat), x ∈ chase l fuel i → i ≤ (x : Int) := by
  intro fuel
  induction fuel with
  | zero => intro i x hx; simp [chase] at hx
  | succ n ih =>
    intro i x hx
    rw [chase] at hx
    by_cases hb : 0 ≤ i ∧ i < (l.length : Int)
    · rw [if_pos hb] at hx
      rcases List.mem_cons.mp hx with h1 | h2
      · subst h1; omega
      · have hiN : i.toNat < l.length := by omega
        rcases hnx i.toNat hiN with hn1 | ⟨hn2, _⟩
        · rw [hn1, chase_neg] at h2
          simp at h2
        · have := ih (batchNext l i.toNat) x h2
          omega
    · rw [if_neg hb] at hx
      simp at hx

theorem chase_pairwise (l : List GskGLCommandBatch) (hnx : nextOk l) :
    ∀ (fuel : Nat) (i : Int), (chase l fuel i).Pairwise (· < ·) := by
  intro fuel
  induction fuel with
  | zero => intro i; simp [chase]
  | succ n ih =>
    intro i
    rw [chase]
    by_cases hb : 0 ≤ i ∧ i < (l.length : Int)
    · rw [if_pos hb]
      refine List.pairwise_cons.mpr ⟨?_, ih _⟩
      intro x hx
      have hge := chase_mem_ge l hnx n (batchNext l i.toNat) x hx
      have hiN : i.toNat < l.length := by omega
      rcases hnx i.toNat hiN with h1 | ⟨h2, h3⟩
      · rw [h1] at hx
        rw [chase_neg] at hx
        simp at hx
      · omega
    · rw [if_neg hb]
      simp

theorem chase_length (l : List GskGLCommandBatch) (hnx : nextOk l) :
    ∀ (fuel : Nat) (i : Int), 0 ≤ i →
      (chase l fuel i).length ≤ l.length - i.toNat := by
  intro fuel
  induction fuel with
  | zero => intro i _; simp [chase]
  | succ n ih =>
    intro i h0
    rw [chase]
    by_cases hb : 0 ≤ i ∧ i < (l.length : Int)
    · rw [if_pos hb]
      have hiN : i.toNat < l.length := by omega
      rcases hnx i.toNat hiN with h1 | ⟨h2, h3⟩
      · rw [h1, chase_neg]
        simp
        omega
      · have := ih (batchNext l i.toNat) (by omega)
        simp only [List.length_cons]
        omega
    · rw [if_neg hb]
      simp

/-- C2: after any sequence of record operations on a fresh queue, the
batch list reachable by following `next_batch_index` from the head is
acyclic: the visited indices are strictly increasing, hence pairwise
distinct, the traversal visits at most batch-count entries even when
given more fuel, and no batch's next index equals its own index. -/
theorem batch_list_traversal_acyclic (f : Nat)
    (texs : List GskGLBindTexture)
    (pend : List (Nat × GskGLCommandUniform)) (m : Int)
    (ops : List RecordOp) :
    ((chase (applyOps (GskGLCommandQueue.init f texs pend m) ops).batches
        ((applyOps (GskGLCommandQueue.init f texs pend m) ops).batches.length + 1)
        0).Pairwise (· < ·)) ∧
    ((chase (applyOps (GskGLCommandQueue.init f texs pend m) ops).batches
        ((applyOps (GskGLCommandQueue.init f texs pend m) ops).batches.length + 1)
        0).Nodup) ∧
    ((chase (applyOps (GskGLCommandQueue.init f texs pend m) ops).batches
        ((applyOps (GskGLCommandQueue.init f texs pend m) ops).batches.length + 1)
        0).length
      ≤ (applyOps (GskGLCommandQueue.init f texs pend m) ops).batches.length) ∧
    (∀ i, i < (applyOps (GskGLCommandQueue.init f texs pend m) ops).batches.length →
      batchNext (applyOps (GskGLCommandQueue.init f texs pend m) ops).batches i ≠ (i : Int)) := by
  have hInv := Inv_applyOps (GskGLCommandQueue.init f texs pend m) ops
    (Inv_init f texs pend m)
  have hnx := hInv.1
  refine ⟨chase_pairwise _ hnx _ _, ?_, ?_, ?_⟩
  · exact List.Pairwise.imp (fun h => Nat.ne_of_lt h) (chase_pairwise _ hnx _ _)
  · have := chase_length _ hnx
      ((applyOps (GskGLCommandQueue.init f texs pend m) ops).batches.length + 1)
      0 (le_refl 0)
    simpa using this
  · intro i hi
    rcases hnx i hi with h1 | ⟨h2, _⟩
    · rw [h1]; omega
    · omega

end GskGL

namespace GskGL

/-- The cast `(int) texture_id` of the C return, where `texture_id` is a
`GLuint`: two's-complement narrowing. -/
def toGLint (n : Nat) : Int :=
  if n % 2 ^ 32 < 2 ^ 31 then ((n % 2 ^ 32 : Nat) : Int)
  else ((n % 2 ^ 32 : Nat) : Int) - 2 ^ 32

/-- `gsk_gl_command_queue_save`: push a snapshot of the attachment state.
Modelled from the spec: the attachment-state implementation is not among
the sources; the spec says save/restore works as a stack of the bound
framebuffer and texture-unit bindings. -/
def gsk_gl_command_queue_save (q : GskGLCommandQueue) : GskGLCommandQueue :=
  let s : GskGLAttachmentSnapshot :=
    { fboId := q.fboId, fboChanged := q.fboChanged, textures := q.textures }
  { q with savedState := s :: q.savedState }

/-- `gsk_gl_command_queue_restore`: pop the most recent snapshot and
re-apply it.  Modelled from the spec, as for `save`. -/
def gsk_gl_command_queue_restore (q : GskGLCommandQueue) : GskGLCommandQueue :=
  match q.savedState with
  | [] => q
  | s :: rest =>
    { q with
      fboId := s.fboId
      fboChanged := s.fboChanged
      textures := s.textures
      savedState := rest }

/-- `gsk_gl_command_queue_create_texture`: refuse requests above the
queried maximum texture dimension with the sentinel `-1` before touching
any GL state; otherwise generate a texture name (the GL name generator is
modelled as a fresh counter), bind and allocate it under a save/restore
bracket, and return the id cast to `int`.  `glMaxTextureSize` supplies
the lazily re-queried `GL_MAX_TEXTURE_SIZE`. -/
def gsk_gl_command_queue_create_texture (q : GskGLCommandQueue)
    (width height : Int) (glMaxTextureSize : Int) :
    GskGLCommandQueue × Int :=
  let q := if q.maxTextureSize = -1
    then { q with maxTextureSize := glMaxTextureSize } else q
  if q.maxTextureSize < width ∨ q.maxTextureSize < height then (q, -1)
  else
    let q1 := gsk_gl_command_queue_save q
    let textureId := q1.nextTextureId
    let q2 := { q1 with nextTextureId := q1.nextTextureId + 1 }
    let q3 := gsk_gl_command_queue_restore q2
    (q3, toGLint textureId)

/-- `gsk_gl_command_queue_create_framebuffer`: generate a framebuffer
name (fresh-counter model of `glGenFramebuffers`). -/
def gsk_gl_command_queue_create_framebuffer (q : GskGLCommandQueue) :
    GskGLCommandQueue × Nat :=
  ({ q with nextFramebufferId := q.nextFramebufferId + 1 },
   q.nextFramebufferId)

/-- `gsk_gl_command_queue_create_render_target`: create texture and
framebuffer under a save/restore bracket; propagate a texture-creation
failure as FALSE with both out parameters set to zero.  The
`g_return_val_if_fail` guards on nonpositive sizes return FALSE without
writing the out parameters; that path is modelled with zero outs. -/
def gsk_gl_command_queue_create_render_target (q : GskGLCommandQueue)
    (width height : Int) (glMaxTextureSize : Int) :
    GskGLCommandQueue × Bool × Nat × Nat :=
  if ¬ (0 < width ∧ 0 < height) then (q, false, 0, 0)
  else
    let q1 := gsk_gl_command_queue_save q
    let r := gsk_gl_command_queue_create_texture q1 width height glMaxTextureSize
    if r.2 = -1 then
      (gsk_gl_command_queue_restore r.1, false, 0, 0)
    else
      let r2 := gsk_gl_command_queue_create_framebuffer r.1
      (gsk_gl_command_queue_restore r2.1, true, r2.2, r.2.toNat)

end GskGL


namespace GskGL

/-- C6: `create_texture` returns the sentinel `-1` without creating or
binding anything whenever the requested width or height exceeds the
queried maximum texture dimension, and otherwise returns a non-negative
texture id while consuming exactly one fresh GL texture name;
`create_render_target` propagates the failure as FALSE with both output
ids set to zero. -/
theorem create_texture_refuses_oversize :
    (∀ (q : GskGLCommandQueue) (width height glMax : Int),
      q.maxTextureSize ≠ -1 →
      (q.maxTextureSize < width ∨ q.maxTextureSize < height) →
      gsk_gl_command_queue_create_texture q width height glMax = (q, -1)) ∧
    (∀ (q : GskGLCommandQueue) (width height glMax : Int),
      q.maxTextureSize ≠ -1 →
      ¬ (q.maxTextureSize < width ∨ q.maxTextureSize < height) →
      q.nextTextureId % 2 ^ 32 < 2 ^ 31 →
      0 ≤ (gsk_gl_command_queue_create_texture q width height glMax).2 ∧
      (gsk_gl_command_queue_create_texture q width height glMax).1
        = { q with nextTextureId := q.nextTextureId + 1 }) ∧
    (∀ (q : GskGLCommandQueue) (width height glMax : Int),
      0 < width → 0 < height →
      q.maxTextureSize ≠ -1 →
      (q.maxTextureSize < width ∨ q.maxTextureSize < height) →
      gsk_gl_command_queue_create_render_target q width height glMax
        = (gsk_gl_command_queue_restore (gsk_gl_command_queue_save q),
           false, 0, 0) ∧
      gsk_gl_command_queue_restore (gsk_gl_command_queue_save q) = q) := by
  have hfail : ∀ (q : GskGLCommandQueue) (width height glMax : Int),
      q.maxTextureSize ≠ -1 →
      (q.maxTextureSize < width ∨ q.maxTextureSize < height) →
      gsk_gl_command_queue_create_texture q width height glMax = (q, -1) := by
    intro q width height glMax hm hover
    rw [gsk_gl_command_queue_create_texture]
    rw [if_neg hm]
    rw [if_pos hover]
  refine ⟨hfail, ?_, ?_⟩
  · intro q width height glMax hm hover hid
    rw [gsk_gl_command_queue_create_texture]
    rw [if_neg hm]
    rw [if_neg hover]
    constructor
    · dsimp only [toGLint, gsk_gl_command_queue_save]
      rw [if_pos hid]
      positivity
    · rfl
  · intro q width height glMax hw hh hm hover
    constructor
    · rw [gsk_gl_command_queue_create_render_target,
        if_neg (by push_neg; exact ⟨hw, hh⟩)]
      dsimp only
      rw [hfail (gsk_gl_command_queue_save q) width height glMax hm hover]
      rw [if_pos rfl]
    · rfl

/-- Witness for C6: with max texture size 4096, a 5000-wide request fails
with -1 and an in-range request succeeds with id 1; the render target
propagates the failure. -/
theorem create_texture_refuses_oversize_witness :
    gsk_gl_command_queue_create_texture
        (GskGLCommandQueue.init 0 [] [] 4096) 5000 16 4096
      = (GskGLCommandQueue.init 0 [] [] 4096, -1) ∧
    0 ≤ (gsk_gl_command_queue_create_texture
        (GskGLCommandQueue.init 0 [] [] 4096) 16 16 4096).2 ∧
    gsk_gl_command_queue_create_render_target
        (GskGLCommandQueue.init 0 [] [] 4096) 5000 16 4096
      = (gsk_gl_command_queue_restore
          (gsk_gl_command_queue_save (GskGLCommandQueue.init 0 [] [] 4096)),
         false, 0, 0) := by
  refine ⟨?_, ?_, ?_⟩
  · exact create_texture_refuses_oversize.1
      (GskGLCommandQueue.init 0 [] [] 4096) 5000 16 4096 (by decide)
      (Or.inl (by decide))
  · exact (create_texture_refuses_oversize.2.1
      (GskGLCommandQueue.init 0 [] [] 4096) 16 16 4096 (by decide)
      (by decide) (by decide)).1
  · exact (create_texture_refuses_oversize.2.2
      (GskGLCommandQueue.init 0 [] [] 4096) 5000 16 4096 (by decide)
      (by decide) (by decide) (Or.inl (by decide))).1

end GskGL

namespace GskGL

/-- An integer rectangle (`cairo_rectangle_int_t`). -/
structure CairoRectInt where
  x : Int
  y : Int
  w : Int
  h : Int
  deriving Repr, DecidableEq, Inhabited

/-- `apply_scissor`: the scissor state issued for the given framebuffer.
`none` models `glDisable (GL_SCISSOR_TEST)`; `some r` models
`glEnable (GL_SCISSOR_TEST)` followed by `glScissor r`.  Any non-zero
framebuffer, and the no-scissor case, disable the test; the window
framebuffer (id 0) gets the supplied rectangle scaled and flipped
vertically against the surface height. -/
def apply_scissor (framebuffer : Nat) (surfaceHeight scaleFactor : Int)
    (scissor : CairoRectInt) (hasScissor : Bool) : Option CairoRectInt :=
  if framebuffer ≠ 0 ∨ hasScissor = false then none
  else some
    { x := scissor.x * scaleFactor
      y := surfaceHeight - scissor.h * scaleFactor - scissor.y * scaleFactor
      w := scissor.w * scaleFactor
      h := scissor.h * scaleFactor }

/-- The GL calls `gsk_gl_command_queue_execute` issues, as trace events. -/
inductive GLEvent where
  | bindFramebuffer (fb : Nat)
  | scissor (s : Option CairoRectInt)
  | viewport (w h : Nat)
  | useProgram (p : Nat)
  | clearEv (bits : Nat)
  | pushGroup (label : String)
  | popGroup
  | bindTexture (slot id : Nat)
  | setUniform (u : GskGLCommandUniform)
  | drawArrays (offset count : Nat)
  deriving Repr, DecidableEq

/-- The lazily tracked GL state of the execute loop: bound framebuffer,
used program and current viewport. -/
structure ExecState where
  framebuffer : Nat
  program : Nat
  width : Nat
  height : Nat
  deriving Repr, DecidableEq, Inhabited

/-- `apply_viewport`: issue a viewport change only when it differs. -/
def apply_viewport (st : ExecState) (w h : Nat) : ExecState × List GLEvent :=
  if st.width ≠ w ∨ st.height ≠ h then
    ({ st with width := w, height := h }, [.viewport w h])
  else (st, [])

/-- One iteration of the execute loop: the state change and GL calls for
a single batch, by kind, switching framebuffer/program/viewport lazily
and recomputing the scissor whenever the framebuffer changes. -/
def executeBatch (q : GskGLCommandQueue) (surfaceHeight scaleFactor : Int)
    (scissor : CairoRectInt) (hasScissor : Bool)
    (st : ExecState) (batch : GskGLCommandBatch) : ExecState × List GLEvent :=
  match batch.payload with
  | .clear bits fb =>
    let s1 :=
      if st.framebuffer ≠ fb then
        ({ st with framebuffer := fb },
         [GLEvent.bindFramebuffer fb,
          GLEvent.scissor (apply_scissor fb surfaceHeight scaleFactor scissor hasScissor)])
      else (st, ([] : List GLEvent))
    let s2 := apply_viewport s1.1 batch.viewportWidth batch.viewportHeight
    (s2.1, s1.2 ++ s2.2 ++ [GLEvent.clearEv bits])
  | .pushDebugGroup label => (st, [GLEvent.pushGroup label])
  | .popDebugGroup => (st, [GLEvent.popGroup])
  | .draw d =>
    let s0 :=
      if batch.program ≠ st.program then
        ({ st with program := batch.program },
         [GLEvent.useProgram batch.program])
      else (st, ([] : List GLEvent))
    let s1 :=
      if d.framebuffer ≠ s0.1.framebuffer then
        ({ s0.1 with framebuffer := d.framebuffer },
         [GLEvent.bindFramebuffer d.framebuffer,
          GLEvent.scissor (apply_scissor d.framebuffer surfaceHeight scaleFactor scissor hasScissor)])
      else (s0.1, ([] : List GLEvent))
    let s2 := apply_viewport s1.1 batch.viewportWidth batch.viewportHeight
    let evBinds := ((q.batchBinds.drop d.bindOffset).take d.bindCount).map
      fun b => GLEvent.bindTexture b.texture b.id
    let evUnis := ((q.batchUniforms.drop d.uniformOffset).take d.uniformCount).map
      GLEvent.setUniform
    (s2.1, s0.2 ++ s1.2 ++ s2.2 ++ evBinds ++ evUnis ++
      [GLEvent.drawArrays d.vboOffset d.vboCount])

/-- The execute loop: follow `next_batch_index` while non-negative,
issuing each batch's calls; fuel-bounded. -/
def executeLoop (q : GskGLCommandQueue) (surfaceHeight scaleFactor : Int)
    (scissor : CairoRectInt) (hasScissor : Bool) :
    Nat → Int → ExecState → List GLEvent
  | 0, _, _ => []
  | fuel + 1, i, st =>
    if 0 ≤ i then
      let batch := q.batches.getD i.toNat default
      let r := executeBatch q surfaceHeight scaleFactor scissor hasScissor st batch
      r.2 ++ executeLoop q surfaceHeight scaleFactor scissor hasScissor fuel
        batch.nextBatchIndex r.1
    else []

/-- `gsk_gl_command_queue_execute` as a GL call trace: initial scissor
setup for the default framebuffer, then the batch walk from index 0. -/
def gsk_gl_command_queue_execute (q : GskGLCommandQueue)
    (surfaceHeight scaleFactor : Int) (scissor : Option CairoRectInt) :
    List GLEvent :=
  if q.batches.length = 0 then []
  else
    GLEvent.scissor (apply_scissor 0 surfaceHeight scaleFactor
        (scissor.getD default) scissor.isSome) ::
      executeLoop q surfaceHeight scaleFactor (scissor.getD default)
        scissor.isSome (q.batches.length + 1) 0
        { framebuffer := 0, program := 0, width := 0, height := 0 }

end GskGL


namespace GskGL

/-- Every `bindFramebuffer fb` event in the trace is immediately followed
by the scissor recomputation for `fb`. -/
def scissorFollowsBind (sh sf : Int) (r : CairoRectInt) (hs : Bool)
    (l : List GLEvent) : Prop :=
  ∀ i fb, l[i]? = some (GLEvent.bindFramebuffer fb) →
    l[i + 1]? = some (GLEvent.scissor (apply_scissor fb sh sf r hs))

/-- A well-formed trace chunk: scissor follows every framebuffer bind,
and the chunk does not end in a dangling bind. -/
def GoodChunk (sh sf : Int) (r : CairoRectInt) (hs : Bool)
    (l : List GLEvent) : Prop :=
  scissorFollowsBind sh sf r hs l ∧
  ∀ fb, l.getLast? ≠ some (GLEvent.bindFramebuffer fb)

theorem good_nil (sh sf : Int) (r : CairoRectInt) (hs : Bool) :
    GoodChunk sh sf r hs [] :=
  ⟨fun i fb h => by simp at h, fun fb => by simp⟩

theorem good_of_noBind (sh sf : Int) (r : CairoRectInt) (hs : Bool)
    (l : List GLEvent)
    (h : ∀ fb, GLEvent.bindFramebuffer fb ∉ l) :
    GoodChunk sh sf r hs l := by
  constructor
  · intro i fb hi
    exact absurd (List.getElem?_mem hi) (h fb)
  · intro fb hl
    cases hl2 : l.getLast? with
    | none => rw [hl2] at hl; exact Option.noConfusion hl
    | some a =>
      rw [hl2] at hl
      injection hl with hl3
      subst hl3
      have hne : l ≠ [] := by intro he; rw [he] at hl2; simp at hl2
      have := List.getLast?_eq_getElem? l
      rw [hl2] at this
      exact absurd (List.getElem?_mem this.symm) (h fb)

theorem good_pair (sh sf : Int) (r : CairoRectInt) (hs : Bool) (fb : Nat) :
    GoodChunk sh sf r hs
      [GLEvent.bindFramebuffer fb,
       GLEvent.scissor (apply_scissor fb sh sf r hs)] := by
  constructor
  · intro i fb2 hi
    match i with
    | 0 =>
      simp only [List.getElem?_cons_zero] at hi
      injection hi with hi2
      injection hi2 with hi3
      subst hi3
      rfl
    | 1 => simp at hi
    | (n + 2) => simp at hi
  · intro fb2
    simp

theorem good_append (sh sf : Int) (r : CairoRectInt) (hs : Bool)
    (a b : List GLEvent) (ha : GoodChunk sh sf r hs a)
    (hb : GoodChunk sh sf r hs b) : GoodChunk sh sf r hs (a ++ b) := by
  obtain ⟨sa, na⟩ := ha
  obtain ⟨sb, nb⟩ := hb
  constructor
  · intro i fb hi
    rcases Nat.lt_or_ge i a.length with hlt | hge
    · rw [List.getElem?_append_left hlt] at hi
      rcases Nat.lt_or_ge (i + 1) a.length with hlt2 | hge2
      · rw [List.getElem?_append_left hlt2]
        exact sa i fb hi
      · have hieq : i + 1 = a.length := by omega
        have hlast : a.getLast? = some (GLEvent.bindFramebuffer fb) := by
          have hne : a ≠ [] := by
            intro he; rw [he] at hlt; simp at hlt
          rw [List.getLast?_eq_getElem?]
          have : a.length - 1 = i := by omega
          rw [this]
          exact hi
        exact absurd hlast (na fb)
    · rw [List.getElem?_append_right hge] at hi
      have hge2 : a.length ≤ i + 1 := by omega
      rw [List.getElem?_append_right hge2]
      have : i + 1 - a.length = (i - a.length) + 1 := by omega
      rw [this]
      exact sb _ fb hi
  · intro fb hl
    cases hbe : b with
    | nil =>
      rw [hbe, List.append_nil] at hl
      exact na fb hl
    | cons x xs =>
      rw [List.getLast?_append_of_ne_nil a (by simp [hbe])] at hl
      exact nb fb hl

end GskGL


namespace GskGL

theorem good_viewport (sh sf : Int) (r : CairoRectInt) (hs : Bool)
    (st : ExecState) (w h : Nat) :
    GoodChunk sh sf r hs (apply_viewport st w h).2 := by
  dsimp only [apply_viewport]
  split
  · exact good_of_noBind sh sf r hs _ (fun fb hm => by simp at hm)
  · exact good_nil sh sf r hs

theorem executeBatch_good (q : GskGLCommandQueue) (sh sf : Int)
    (r : CairoRectInt) (hs : Bool) (st : ExecState)
    (batch : GskGLCommandBatch) :
    GoodChunk sh sf r hs (executeBatch q sh sf r hs st batch).2 := by
  cases hp : batch.payload with
  | clear bits fb =>
    dsimp only [executeBatch]
    rw [hp]
    dsimp only
    refine good_append sh sf r hs _ _
      (good_append sh sf r hs _ _ ?_ (good_viewport sh sf r hs _ _ _)) ?_
    · split
      · exact good_pair sh sf r hs fb
      · exact good_nil sh sf r hs
    · exact good_of_noBind sh sf r hs _ (fun fb2 hm => by simp at hm)
  | pushDebugGroup label =>
    dsimp only [executeBatch]
    rw [hp]
    exact good_of_noBind sh sf r hs _ (fun fb2 hm => by simp at hm)
  | popDebugGroup =>
    dsimp only [executeBatch]
    rw [hp]
    exact good_of_noBind sh sf r hs _ (fun fb2 hm => by simp at hm)
  | draw d =>
    dsimp only [executeBatch]
    rw [hp]
    dsimp only
    refine good_append sh sf r hs _ _
      (good_append sh sf r hs _ _
        (good_append sh sf r hs _ _
          (good_append sh sf r hs _ _
            (good_append sh sf r hs _ _ ?_ ?_)
            (good_viewport sh sf r hs _ _ _)) ?_) ?_) ?_
    · split
      · exact good_of_noBind sh sf r hs _ (fun fb2 hm => by simp at hm)
      · exact good_nil sh sf r hs
    · split <;> split
      · exact good_pair sh sf r hs d.framebuffer
      · exact good_nil sh sf r hs
      · exact good_pair sh sf r hs d.framebuffer
      · exact good_nil sh sf r hs
    · exact good_of_noBind sh sf r hs _ (fun fb2 hm => by
        rcases List.mem_map.mp hm with ⟨b, hb, he⟩
        exact GLEvent.noConfusion he)
    · exact good_of_noBind sh sf r hs _ (fun fb2 hm => by
        rcases List.mem_map.mp hm with ⟨u, hu, he⟩
        exact GLEvent.noConfusion he)
    · exact good_of_noBind sh sf r hs _ (fun fb2 hm => by simp at hm)

theorem executeLoop_good (q : GskGLCommandQueue) (sh sf : Int)
    (r : CairoRectInt) (hs : Bool) :
    ∀ (fuel : Nat) (i : Int) (st : ExecState),
      GoodChunk sh sf r hs (executeLoop q sh sf r hs fuel i st) := by
  intro fuel
  induction fuel with
  | zero => intro i st; exact good_nil sh sf r hs
  | succ n ih =>
    intro i st
    dsimp only [executeLoop]
    split
    · exact good_append sh sf r hs _ _
        (executeBatch_good q sh sf r hs st _) (ih _ _)
    · exact good_nil sh sf r hs

theorem execute_good (q : GskGLCommandQueue) (sh sf : Int)
    (sc : Option CairoRectInt) :
    GoodChunk sh sf (sc.getD default) sc.isSome
      (gsk_gl_command_queue_execute q sh sf sc) := by
  dsimp only [gsk_gl_command_queue_execute]
  split
  · exact good_nil sh sf _ _
  · have h := good_append sh sf (sc.getD default) sc.isSome
      [GLEvent.scissor (apply_scissor 0 sh sf (sc.getD default) sc.isSome)]
      (executeLoop q sh sf (sc.getD default) sc.isSome
        (q.batches.length + 1) 0
        { framebuffer := 0, program := 0, width := 0, height := 0 })
      (good_of_noBind sh sf _ _ _ (fun fb2 hm => by simp at hm))
      (executeLoop_good q sh sf (sc.getD default) sc.isSome _ _ _)
    simpa using h

end GskGL


namespace GskGL

/-- Counterexample to the claimed scissor exemption: the source exempts
every NON-zero framebuffer from scissoring and applies the scissor
rectangle precisely to the window framebuffer (id 0), the opposite of
the claimed roles.  Here framebuffer 0 with a scissor present yields an
applied scissor rectangle, while framebuffer 3 with the same scissor
yields a disabled scissor test. -/
theorem scissor_exemption_counterexample :
    apply_scissor 0 100 1 { x := 1, y := 2, w := 10, h := 20 } true ≠ none ∧
    apply_scissor 3 100 1 { x := 1, y := 2, w := 10, h := 20 } true = none := by
  constructor
  · decide
  · rfl

/-- C3 (amended): during execute, any non-zero framebuffer id has the
scissor test disabled, as does the absence of a scissor rectangle; the
window framebuffer (id 0) with a scissor present gets the rectangle
scaled by the scale factor and flipped vertically against the surface
height; and in every trace of `gsk_gl_command_queue_execute`, each
`glBindFramebuffer` call is immediately followed by the scissor
recomputation for the newly bound framebuffer. -/
theorem scissor_window_framebuffer_and_recompute_on_change :
    (∀ (sh sf : Int) (r : CairoRectInt) (hs : Bool) (fb : Nat),
        fb ≠ 0 → apply_scissor fb sh sf r hs = none) ∧
    (∀ (sh sf : Int) (r : CairoRectInt) (fb : Nat),
        apply_scissor fb sh sf r false = none) ∧
    (∀ (sh sf : Int) (r : CairoRectInt),
        apply_scissor 0 sh sf r true =
          some { x := r.x * sf
                 y := sh - r.h * sf - r.y * sf
                 w := r.w * sf
                 h := r.h * sf }) ∧
    (∀ (q : GskGLCommandQueue) (sh sf : Int) (sc : Option CairoRectInt),
        scissorFollowsBind sh sf (sc.getD default) sc.isSome
          (gsk_gl_command_queue_execute q sh sf sc)) := by
  refine ⟨?_, ?_, ?_, ?_⟩
  · intro sh sf r hs fb hfb
    dsimp only [apply_scissor]
    rw [if_pos (Or.inl hfb)]
  · intro sh sf r fb
    dsimp only [apply_scissor]
    rw [if_pos (Or.inr rfl)]
  · intro sh sf r
    dsimp only [apply_scissor]
    rw [if_neg (by simp)]
  · intro q sh sf sc
    exact (execute_good q sh sf sc).1

/-- Concrete instantiation: framebuffer 3 is exempt from scissoring, and
in the trace of a one-batch clear queue bound to framebuffer 7 the
`glBindFramebuffer 7` call at index 1 is immediately followed by the
scissor recomputation for framebuffer 7. -/
theorem scissor_window_framebuffer_and_recompute_on_change_witness :
    apply_scissor 3 100 1 { x := 1, y := 2, w := 10, h := 20 } true = none ∧
    (gsk_gl_command_queue_execute
        (gsk_gl_command_queue_clear (GskGLCommandQueue.init 7 [] [] 4096)
          0 800 600)
        100 1 none)[2]?
      = some (GLEvent.scissor (apply_scissor 7 100 1
          ((none : Option CairoRectInt).getD default)
          (none : Option CairoRectInt).isSome)) := by
  constructor
  · exact scissor_window_framebuffer_and_recompute_on_change.1 100 1
      { x := 1, y := 2, w := 10, h := 20 } true 3 (by decide)
  · exact scissor_window_framebuffer_and_recompute_on_change.2.2.2
      (gsk_gl_command_queue_clear (GskGLCommandQueue.init 7 [] [] 4096)
        0 800 600)
      100 1 none 1 7 (by rfl)

end GskGL


namespace GskGL

/-- A floating-point rectangle (`graphene_rect_t`), with exact rationals
standing in for floats. -/
structure GrapheneRect where
  x : ℚ
  y : ℚ
  w : ℚ
  h : ℚ
  deriving Repr, DecidableEq, Inhabited

/-- A size (`graphene_size_t`), used for corner radii pairs. -/
structure GrapheneSize where
  width : ℚ
  height : ℚ
  deriving Repr, DecidableEq, Inhabited

/-- Modelled from the spec: `graphene_rect_normalize` of the external
graphene library flips a negative width or height around the origin. -/
def graphene_rect_normalize (r : GrapheneRect) : GrapheneRect :=
  let r1 := if r.w < 0 then { r with x := r.x + r.w, w := -r.w } else r
  if r1.h < 0 then { r1 with y := r1.y + r1.h, h := -r1.h } else r1

/-- Modelled from the spec: `graphene_rect_intersection` of the external
graphene library.  Returns the intersection rectangle and whether the
two normalized rectangles properly overlap; on no proper overlap the
rectangle is zeroed and the flag is false. -/
def graphene_rect_intersection (a b : GrapheneRect) : GrapheneRect × Bool :=
  let ra := graphene_rect_normalize a
  let rb := graphene_rect_normalize b
  let x1 := max ra.x rb.x
  let y1 := max ra.y rb.y
  let x2 := min (ra.x + ra.w) (rb.x + rb.w)
  let y2 := min (ra.y + ra.h) (rb.y + rb.h)
  if x1 ≥ x2 ∨ y1 ≥ y2 then ({ x := 0, y := 0, w := 0, h := 0 }, false)
  else ({ x := x1, y := y1, w := x2 - x1, h := y2 - y1 }, true)

/-- `rect_intersects`: interval-overlap test with non-strict overlap —
touching edges count as intersecting; assumes normalized inputs. -/
def rect_intersects (r1 r2 : GrapheneRect) : Bool :=
  if r1.x > r2.x + r2.w ∨ r1.x + r1.w < r2.x then false
  else if r1.y > r2.y + r2.h ∨ r1.y + r1.h < r2.y then false
  else true

/-- `rect_contains_rect`: closed containment of `r2` in `r1`. -/
def rect_contains_rect (r1 r2 : GrapheneRect) : Bool :=
  if r2.x ≥ r1.x ∧ r2.x + r2.w ≤ r1.x + r1.w ∧
     r2.y ≥ r1.y ∧ r2.y + r2.h ≤ r1.y + r1.h then true
  else false

/-- A rounded rectangle (`GskRoundedRect`): bounds plus the four corner
sizes in source order top-left, top-right, bottom-right, bottom-left. -/
structure GskRoundedRect where
  bounds : GrapheneRect
  corner0 : GrapheneSize
  corner1 : GrapheneSize
  corner2 : GrapheneSize
  corner3 : GrapheneSize
  deriving Repr, DecidableEq, Inhabited

/-- `r->corner[i]` for `i` in 0..3. -/
def GskRoundedRect.corner (r : GskRoundedRect) : Nat → GrapheneSize
  | 0 => r.corner0
  | 1 => r.corner1
  | 2 => r.corner2
  | _ => r.corner3

/-- The `rounded_rect_corner` macros: the bounding box of corner `i`.
The bottom-left macro takes its vertical origin from `corner[2].height`
while using `corner[3]` for the size, exactly as the source macro is
written. -/
def rounded_rect_corner (r : GskRoundedRect) : Nat → GrapheneRect
  | 0 =>
    { x := r.bounds.x
      y := r.bounds.y
      w := r.corner0.width
      h := r.corner0.height }
  | 1 =>
    { x := r.bounds.x + r.bounds.w - r.corner1.width
      y := r.bounds.y
      w := r.corner1.width
      h := r.corner1.height }
  | 2 =>
    { x := r.bounds.x + r.bounds.w - r.corner2.width
      y := r.bounds.y + r.bounds.h - r.corner2.height
      w := r.corner2.width
      h := r.corner2.height }
  | _ =>
    { x := r.bounds.x
      y := r.bounds.y + r.bounds.h - r.corner2.height
      w := r.corner3.width
      h := r.corner3.height }

/-- `rounded_rect_has_corner`: corner `i` has positive radii. -/
def rounded_rect_has_corner (r : GskRoundedRect) (i : Nat) : Bool :=
  (r.corner i).width > 0 && (r.corner i).height > 0

/-- `corners[i]` of `intersect_rounded_rectilinear`: the corner is
present and its box intersects the incoming rectangle. -/
def irr_corner (nr : GrapheneRect) (r : GskRoundedRect) (i : Nat) : Bool :=
  rounded_rect_has_corner r i && rect_intersects nr (rounded_rect_corner r i)

/-- The early-return condition for corner `i`: its box intersects the
rectangle but is not fully contained in it. -/
def irr_bad (nr : GrapheneRect) (r : GskRoundedRect) (i : Nat) : Bool :=
  irr_corner nr r i && !rect_contains_rect nr (rounded_rect_corner r i)

/-- `intersect_rounded_rectilinear`: fast-path intersection of a plain
rectangle with a rounded rectangle; `none` models the FALSE return
(fallback required). -/
def intersect_rounded_rectilinear (non_rounded : GrapheneRect)
    (rounded : GskRoundedRect) : Option GskRoundedRect :=
  if irr_bad non_rounded rounded 0 then none
  else if irr_bad non_rounded rounded 1 then none
  else if irr_bad non_rounded rounded 2 then none
  else if irr_bad non_rounded rounded 3 then none
  else some
    { bounds := (graphene_rect_intersection non_rounded rounded.bounds).1
      corner0 := if irr_corner non_rounded rounded 0 then rounded.corner0
        else { width := 0, height := 0 }
      corner1 := if irr_corner non_rounded rounded 1 then rounded.corner1
        else { width := 0, height := 0 }
      corner2 := if irr_corner non_rounded rounded 2 then rounded.corner2
        else { width := 0, height := 0 }
      corner3 := if irr_corner non_rounded rounded 3 then rounded.corner3
        else { width := 0, height := 0 } }

/-- The clip resolution performed by
`gsk_gl_render_job_visit_clipped_child`: `transformed_clip` is the
incoming clip's bounds transformed by the modelview, `current` the top
of the clip stack with its precomputed rectilinear flag, `clip` the
incoming rounded clip.  A rectilinear current clip yields the
zero-cornered graphene intersection of the transformed bounds with the
current bounds; otherwise the fast path is tried on the transformed
bounds and the incoming clip (the source passes `clip`, not the current
clip, as the rounded argument); `none` models the stubbed offscreen
fallback branch. -/
def gsk_gl_render_job_visit_clipped_child_clip
    (transformed_clip : GrapheneRect) (current : GskRoundedRect)
    (currentIsRectilinear : Bool) (clip : GskRoundedRect) :
    Option GskRoundedRect :=
  if currentIsRectilinear then
    some
      { bounds := (graphene_rect_intersection transformed_clip current.bounds).1
        corner0 := { width := 0, height := 0 }
        corner1 := { width := 0, height := 0 }
        corner2 := { width := 0, height := 0 }
        corner3 := { width := 0, height := 0 } }
  else intersect_rounded_rectilinear transformed_clip clip

/-- A point lies in a rectangle (closed on all sides). -/
def pointInRect (px py : ℚ) (r : GrapheneRect) : Prop :=
  r.x ≤ px ∧ px ≤ r.x + r.w ∧ r.y ≤ py ∧ py ≤ r.y + r.h

instance (px py : ℚ) (r : GrapheneRect) : Decidable (pointInRect px py r) :=
  inferInstanceAs (Decidable (_ ∧ _ ∧ _ ∧ _))

/-- The four corner points of a plain rectangle. -/
def rectCorners (r : GrapheneRect) : List (ℚ × ℚ) :=
  [(r.x, r.y), (r.x + r.w, r.y), (r.x, r.y + r.h), (r.x + r.w, r.y + r.h)]

end GskGL


namespace GskGL

/-- The rounded clip of the fast-path counterexample: a 100 by 100
square with radius-10 corners. -/
def cexRounded : GskRoundedRect :=
  { bounds := { x := 0, y := 0, w := 100, h := 100 }
    corner0 := { width := 10, height := 10 }
    corner1 := { width := 10, height := 10 }
    corner2 := { width := 10, height := 10 }
    corner3 := { width := 10, height := 10 } }

/-- The incoming rectangle of the fast-path counterexample: a thin
vertical strip crossing the left edge. -/
def cexStrip : GrapheneRect := { x := 4, y := -20, w := 2, h := 200 }

/-- Counterexample to the claimed corner-overlap guarantee: the thin
strip has none of its four corner points inside any corner box of the
rounded clip, yet the fast path fails, because the strip's edges pass
through the top-left and bottom-left corner boxes without containing
them.  Corner-box intersection, not corner-point overlap, is what the
source tests. -/
theorem rounded_rectilinear_fast_path_counterexample :
    intersect_rounded_rectilinear cexStrip cexRounded = none ∧
    ((rectCorners cexStrip).all fun p =>
      (List.range 4).all fun i =>
        decide (¬ pointInRect p.1 p.2 (rounded_rect_corner cexRounded i)))
      = true := by
  constructor
  · norm_num [intersect_rounded_rectilinear, irr_bad, irr_corner,
      rounded_rect_has_corner, rect_intersects, rect_contains_rect,
      rounded_rect_corner, GskRoundedRect.corner, cexStrip, cexRounded]
  · norm_num [rectCorners, pointInRect, rounded_rect_corner,
      GskRoundedRect.corner, cexStrip, cexRounded, List.range_succ]

end GskGL


namespace GskGL

theorem graphene_rect_normalize_of_nonneg (r : GrapheneRect)
    (hw : 0 ≤ r.w) (hh : 0 ≤ r.h) : graphene_rect_normalize r = r := by
  dsimp only [graphene_rect_normalize]
  rw [if_neg (not_lt.mpr hw), if_neg (not_lt.mpr hh)]

theorem pointInRect_intersection (a b : GrapheneRect)
    (ha1 : 0 ≤ a.w) (ha2 : 0 ≤ a.h) (hb1 : 0 ≤ b.w) (hb2 : 0 ≤ b.h)
    (hsucc : (graphene_rect_intersection a b).2 = true) (px py : ℚ) :
    pointInRect px py (graphene_rect_intersection a b).1 ↔
      pointInRect px py a ∧ pointInRect px py b := by
  have hna := graphene_rect_normalize_of_nonneg a ha1 ha2
  have hnb := graphene_rect_normalize_of_nonneg b hb1 hb2
  dsimp only [graphene_rect_intersection] at hsucc ⊢
  rw [hna, hnb] at hsucc ⊢
  by_cases hc : max a.x b.x ≥ min (a.x + a.w) (b.x + b.w) ∨
      max a.y b.y ≥ min (a.y + a.h) (b.y + b.h)
  · rw [if_pos hc] at hsucc
    exact absurd hsucc (by simp)
  · rw [if_neg hc]
    dsimp only [pointInRect]
    have ex : max a.x b.x + (min (a.x + a.w) (b.x + b.w) - max a.x b.x)
        = min (a.x + a.w) (b.x + b.w) := by ring
    have ey : max a.y b.y + (min (a.y + a.h) (b.y + b.h) - max a.y b.y)
        = min (a.y + a.h) (b.y + b.h) := by ring
    rw [ex, ey, max_le_iff, le_min_iff, max_le_iff, le_min_iff]
    tauto

theorem irr_isSome_eq (nr : GrapheneRect) (r : GskRoundedRect) :
    (intersect_rounded_rectilinear nr r).isSome =
      (!irr_bad nr r 0 && !irr_bad nr r 1 &&
       !irr_bad nr r 2 && !irr_bad nr r 3) := by
  dsimp only [intersect_rounded_rectilinear]
  cases h0 : irr_bad nr r 0 <;> cases h1 : irr_bad nr r 1 <;>
    cases h2 : irr_bad nr r 2 <;> cases h3 : irr_bad nr r 3 <;> simp

theorem irr_some_eq (nr : GrapheneRect) (r : GskRoundedRect)
    (h0 : irr_bad nr r 0 = false) (h1 : irr_bad nr r 1 = false)
    (h2 : irr_bad nr r 2 = false) (h3 : irr_bad nr r 3 = false) :
    intersect_rounded_rectilinear nr r = some
      { bounds := (graphene_rect_intersection nr r.bounds).1
        corner0 := if irr_corner nr r 0 then r.corner0
          else { width := 0, height := 0 }
        corner1 := if irr_corner nr r 1 then r.corner1
          else { width := 0, height := 0 }
        corner2 := if irr_corner nr r 2 then r.corner2
          else { width := 0, height := 0 }
        corner3 := if irr_corner nr r 3 then r.corner3
          else { width := 0, height := 0 } } := by
  dsimp only [intersect_rounded_rectilinear]
  simp only [h0, h1, h2, h3, Bool.false_eq_true, if_false]

end GskGL


namespace GskGL

/-- C4 (amended): with a rectilinear current clip, the resolved clip is
the graphene intersection of the transformed incoming bounds with the
current bounds and all corner radii are zero, and for properly
overlapping normalized rectangles that graphene intersection is the
exact geometric intersection pointwise.  With a rounded current clip
the fast path is `intersect_rounded_rectilinear` on the transformed
bounds and the incoming clip; it succeeds exactly when every present
corner whose corner box intersects the rectangle is fully contained in
it; on success the bounds are the graphene intersection with the
rounded rectangle's bounds and each corner keeps its radii exactly when
its box intersects the rectangle; and when the rectangle intersects no
corner box at all the fast path always succeeds.  (The claim's stronger
clause — success whenever no corner POINT of the incoming rectangle
lies in a corner box — is false; see the counterexample.) -/
theorem clip_intersection_fast_path :
    (∀ (tc : GrapheneRect) (cur clip : GskRoundedRect),
        gsk_gl_render_job_visit_clipped_child_clip tc cur true clip =
          some
            { bounds := (graphene_rect_intersection tc cur.bounds).1
              corner0 := { width := 0, height := 0 }
              corner1 := { width := 0, height := 0 }
              corner2 := { width := 0, height := 0 }
              corner3 := { width := 0, height := 0 } }) ∧
    (∀ (tc : GrapheneRect) (cur clip : GskRoundedRect),
        gsk_gl_render_job_visit_clipped_child_clip tc cur false clip =
          intersect_rounded_rectilinear tc clip) ∧
    (∀ (a b : GrapheneRect), 0 ≤ a.w → 0 ≤ a.h → 0 ≤ b.w → 0 ≤ b.h →
        (graphene_rect_intersection a b).2 = true →
        ∀ (px py : ℚ),
          pointInRect px py (graphene_rect_intersection a b).1 ↔
            pointInRect px py a ∧ pointInRect px py b) ∧
    (∀ (nr : GrapheneRect) (r : GskRoundedRect),
        (intersect_rounded_rectilinear nr r).isSome = true ↔
          ∀ i, i < 4 → irr_corner nr r i = true →
            rect_contains_rect nr (rounded_rect_corner r i) = true) ∧
    (∀ (nr : GrapheneRect) (r res : GskRoundedRect),
        intersect_rounded_rectilinear nr r = some res →
          res.bounds = (graphene_rect_intersection nr r.bounds).1 ∧
          ∀ i, i < 4 →
            res.corner i = if irr_corner nr r i = true then r.corner i
              else { width := 0, height := 0 }) ∧
    (∀ (nr : GrapheneRect) (r : GskRoundedRect),
        (∀ i, i < 4 → rect_intersects nr (rounded_rect_corner r i) = false) →
        (intersect_rounded_rectilinear nr r).isSome = true) := by
  have hbadIff : ∀ (nr : GrapheneRect) (r : GskRoundedRect) (i : Nat),
      irr_bad nr r i = false ↔
        (irr_corner nr r i = true →
          rect_contains_rect nr (rounded_rect_corner r i) = true) := by
    intro nr r i
    dsimp only [irr_bad]
    cases hc : irr_corner nr r i <;>
      cases hk : rect_contains_rect nr (rounded_rect_corner r i) <;> simp
  refine ⟨?_, ?_, ?_, ?_, ?_, ?_⟩
  · intro tc cur clip
    rfl
  · intro tc cur clip
    rfl
  · exact pointInRect_intersection
  · intro nr r
    rw [irr_isSome_eq]
    simp only [Bool.and_eq_true, Bool.not_eq_true']
    constructor
    · rintro ⟨⟨⟨h0, h1⟩, h2⟩, h3⟩ i hi
      have h4 : i = 0 ∨ i = 1 ∨ i = 2 ∨ i = 3 := by omega
      rcases h4 with rfl | rfl | rfl | rfl
      · exact (hbadIff nr r 0).mp h0
      · exact (hbadIff nr r 1).mp h1
      · exact (hbadIff nr r 2).mp h2
      · exact (hbadIff nr r 3).mp h3
    · intro h
      exact ⟨⟨⟨(hbadIff nr r 0).mpr (h 0 (by omega)),
        (hbadIff nr r 1).mpr (h 1 (by omega))⟩,
        (hbadIff nr r 2).mpr (h 2 (by omega))⟩,
        (hbadIff nr r 3).mpr (h 3 (by omega))⟩
  · intro nr r res h
    have hsome : (intersect_rounded_rectilinear nr r).isSome = true := by
      rw [h]; rfl
    rw [irr_isSome_eq] at hsome
    simp only [Bool.and_eq_true, Bool.not_eq_true'] at hsome
    obtain ⟨⟨⟨h0, h1⟩, h2⟩, h3⟩ := hsome
    rw [irr_some_eq nr r h0 h1 h2 h3] at h
    injection h with h
    subst h
    refine ⟨rfl, ?_⟩
    intro i hi
    have h4 : i = 0 ∨ i = 1 ∨ i = 2 ∨ i = 3 := by omega
    rcases h4 with rfl | rfl | rfl | rfl <;> rfl
  · intro nr r h
    rw [irr_isSome_eq]
    have hc : ∀ i, i < 4 → irr_corner nr r i = false := by
      intro i hi
      dsimp only [irr_corner]
      rw [h i hi]
      exact Bool.and_false _
    simp only [Bool.and_eq_true, Bool.not_eq_true']
    refine ⟨⟨⟨?_, ?_⟩, ?_⟩, ?_⟩ <;>
      simp only [irr_bad, hc 0 (by omega), hc 1 (by omega),
        hc 2 (by omega), hc 3 (by omega), Bool.false_and]

end GskGL


namespace GskGL

/-- Concrete instantiation: the graphene intersection of two
overlapping 10 by 10 squares is pointwise exact at (6,6); a 5 by 5
rectangle interior to the rounded counterexample clip and away from
every corner box passes the fast path; and its resolved bounds are the
graphene intersection with the clip bounds. -/
theorem clip_intersection_fast_path_witness :
    (pointInRect 6 6 (graphene_rect_intersection
        { x := 0, y := 0, w := 10, h := 10 }
        { x := 5, y := 5, w := 10, h := 10 }).1 ↔
      (pointInRect 6 6 { x := 0, y := 0, w := 10, h := 10 } ∧
       pointInRect 6 6 { x := 5, y := 5, w := 10, h := 10 })) ∧
    (intersect_rounded_rectilinear
        { x := 40, y := 40, w := 5, h := 5 } cexRounded).isSome = true ∧
    ({ bounds := { x := 40, y := 40, w := 5, h := 5 }
       corner0 := { width := 0, height := 0 }
       corner1 := { width := 0, height := 0 }
       corner2 := { width := 0, height := 0 }
       corner3 := { width := 0, height := 0 } } : GskRoundedRect).bounds
      = (graphene_rect_intersection { x := 40, y := 40, w := 5, h := 5 }
          cexRounded.bounds).1 := by
  refine ⟨?_, ?_, ?_⟩
  · exact clip_intersection_fast_path.2.2.1 _ _ (by norm_num) (by norm_num)
      (by norm_num) (by norm_num)
      (by norm_num [graphene_rect_intersection, graphene_rect_normalize]) 6 6
  · exact clip_intersection_fast_path.2.2.2.2.2 _ cexRounded
      (by
        intro i hi
        interval_cases i <;>
          norm_num [rect_intersects, rounded_rect_corner, cexRounded])
  · exact (clip_intersection_fast_path.2.2.2.2.1 _ cexRounded _
      (by
        norm_num [intersect_rounded_rectilinear, irr_bad, irr_corner,
          rounded_rect_has_corner, rect_intersects, rect_contains_rect,
          rounded_rect_corner, graphene_rect_intersection,
          graphene_rect_normalize, cexRounded])).1

end GskGL


namespace GskGL

/-- Transform categories as ordered in the gsk enumeration (coarsest
first). -/
inductive GskTransformCategory where
  | unknown
  | any
  | threeD
  | twoD
  | twoDAffine
  | twoDTranslate
  | identity
  deriving Repr, DecidableEq, Inhabited

/-- The enumeration rank of a category. -/
def GskTransformCategory.rank : GskTransformCategory → Nat
  | .unknown => 0
  | .any => 1
  | .threeD => 2
  | .twoD => 3
  | .twoDAffine => 4
  | .twoDTranslate => 5
  | .identity => 6

/-- The coarser of two categories (smaller enumeration rank wins). -/
def catMin (a b : GskTransformCategory) : GskTransformCategory :=
  if a.rank ≤ b.rank then a else b

/-- Modelled from the spec: a `GskTransform` (external gsk library)
restricted to the affine transforms this renderer core can represent —
a category tag with scale and translation components. -/
structure GskTransform where
  category : GskTransformCategory
  sx : ℚ
  sy : ℚ
  dx : ℚ
  dy : ℚ
  deriving Repr, DecidableEq, Inhabited

/-- Modelled from the spec: `gsk_transform_get_category`. -/
def gsk_transform_get_category (t : GskTransform) : GskTransformCategory :=
  t.category

/-- Modelled from the spec: `gsk_transform_to_translate`. -/
def gsk_transform_to_translate (t : GskTransform) : ℚ × ℚ :=
  (t.dx, t.dy)

/-- Modelled from the spec: `gsk_transform_to_affine` returns the scale
and translation components. -/
def gsk_transform_to_affine (t : GskTransform) : ℚ × ℚ × ℚ × ℚ :=
  (t.sx, t.sy, t.dx, t.dy)

/-- Modelled from the spec: `gsk_transform_translate` post-composes a
translation (the translation is applied first), downgrading the
category to at most 2D-translate. -/
def gsk_transform_translate (t : GskTransform) (px py : ℚ) : GskTransform :=
  { category := catMin t.category .twoDTranslate
    sx := t.sx
    sy := t.sy
    dx := t.dx + t.sx * px
    dy := t.dy + t.sy * py }

/-- Modelled from the spec: `gsk_transform_transform` composes two
transforms (the second is applied first), taking the coarser
category. -/
def gsk_transform_transform (t next : GskTransform) : GskTransform :=
  { category := catMin t.category next.category
    sx := t.sx * next.sx
    sy := t.sy * next.sy
    dx := t.dx + t.sx * next.dx
    dy := t.dy + t.sy * next.dy }

/-- A modelview stack frame (`GskGLRenderModelview`): the composed
transform, its decomposed scales and the offset accumulator to restore
on pop. -/
structure GskGLRenderModelview where
  transform : GskTransform
  scale_x : ℚ
  scale_y : ℚ
  offset_x_before : ℚ
  offset_y_before : ℚ
  deriving Repr, DecidableEq, Inhabited

/-- `extract_matrix_metadata`: fill in the frame's scale factors from
its transform's category — identity/translate scale 1, affine the
decomposed scales, and for the never-taken higher categories the column
lengths of the matrix (absolute scales on this affine carrier). -/
def extract_matrix_metadata (m : GskGLRenderModelview) :
    GskGLRenderModelview :=
  match m.transform.category with
  | .identity | .twoDTranslate => { m with scale_x := 1, scale_y := 1 }
  | .twoDAffine =>
    { m with
      scale_x := (gsk_transform_to_affine m.transform).1
      scale_y := (gsk_transform_to_affine m.transform).2.1 }
  | _ =>
    { m with
      scale_x := |m.transform.sx|
      scale_y := |m.transform.sy| }

/-- The render-job state relevant to transform dispatch: the modelview
stack (top at the end), the offset accumulator and the current scale
factors. -/
structure GskGLRenderJob where
  modelview : List GskGLRenderModelview
  offset_x : ℚ
  offset_y : ℚ
  scale_x : ℚ
  scale_y : ℚ
  deriving Repr, DecidableEq, Inhabited

/-- `gsk_gl_render_job_offset`: accumulate a translation. -/
def gsk_gl_render_job_offset (job : GskGLRenderJob) (ox oy : ℚ) :
    GskGLRenderJob :=
  { job with
    offset_x := job.offset_x + ox
    offset_y := job.offset_y + oy }

/-- `gsk_gl_render_job_push_modelview`: push a frame whose transform is
the previous top composed with the accumulated offset translation and
the incoming transform (or the incoming transform alone on an empty
stack), remember the offsets, zero the accumulator.  The source's
trailing scale updates assign `job->scale_x = job->scale_x`, so the
job scales are left unchanged. -/
def gsk_gl_render_job_push_modelview (job : GskGLRenderJob)
    (transform : GskTransform) : GskGLRenderJob :=
  let t := match job.modelview.getLast? with
    | some last =>
      gsk_transform_transform
        (gsk_transform_translate last.transform job.offset_x job.offset_y)
        transform
    | none => transform
  let modelview := extract_matrix_metadata
    { transform := t
      scale_x := 0
      scale_y := 0
      offset_x_before := job.offset_x
      offset_y_before := job.offset_y }
  { job with
    modelview := job.modelview ++ [modelview]
    offset_x := 0
    offset_y := 0 }

/-- `gsk_gl_render_job_pop_modelview`: restore the offsets remembered
by the popped frame and, if a frame remains, the scales of the new
top.  Popping an empty stack is an assertion failure in the source;
the model leaves the job unchanged. -/
def gsk_gl_render_job_pop_modelview (job : GskGLRenderJob) :
    GskGLRenderJob :=
  match job.modelview.getLast? with
  | none => job
  | some head =>
    let mv := job.modelview.dropLast
    let job1 := { job with
      offset_x := head.offset_x_before
      offset_y := head.offset_y_before
      modelview := mv }
    match mv.getLast? with
    | some h2 => { job1 with scale_x := h2.scale_x, scale_y := h2.scale_y }
    | none => job1

/-- `gsk_gl_render_job_visit_transform_node`, abstracted over the
child visit: identity visits directly; 2D-translate brackets the visit
in offset adjustments; 2D-affine brackets it in a modelview push/pop;
every higher category emits only a warning (the returned flag). -/
def gsk_gl_render_job_visit_transform_node
    (visit : GskGLRenderJob → GskGLRenderJob) (job : GskGLRenderJob)
    (transform : GskTransform) : GskGLRenderJob × Bool :=
  match gsk_transform_get_category transform with
  | .identity => (visit job, false)
  | .twoDTranslate =>
    let d := gsk_transform_to_translate transform
    let j1 := gsk_gl_render_job_offset job d.1 d.2
    let j2 := visit j1
    (gsk_gl_render_job_offset j2 (-d.1) (-d.2), false)
  | .twoDAffine =>
    let j1 := gsk_gl_render_job_push_modelview job transform
    let j2 := visit j1
    (gsk_gl_render_job_pop_modelview j2, false)
  | _ => (job, true)

end GskGL


namespace GskGL

theorem extract_matrix_metadata_fields (m : GskGLRenderModelview) :
    (extract_matrix_metadata m).transform = m.transform ∧
    (extract_matrix_metadata m).offset_x_before = m.offset_x_before ∧
    (extract_matrix_metadata m).offset_y_before = m.offset_y_before := by
  cases h : m.transform.category <;>
    simp [extract_matrix_metadata, h]

theorem pop_modelview_concat (j : GskGLRenderJob)
    (l : List GskGLRenderModelview) (f : GskGLRenderModelview)
    (h : j.modelview = l ++ [f]) :
    (gsk_gl_render_job_pop_modelview j).modelview = l ∧
    (gsk_gl_render_job_pop_modelview j).offset_x = f.offset_x_before ∧
    (gsk_gl_render_job_pop_modelview j).offset_y = f.offset_y_before := by
  dsimp only [gsk_gl_render_job_pop_modelview]
  rw [h, List.getLast?_concat, List.dropLast_concat]
  cases hl : l.getLast? <;> simp

theorem push_modelview_shape (job : GskGLRenderJob) (t : GskTransform) :
    (gsk_gl_render_job_push_modelview job t).modelview =
      job.modelview ++ [extract_matrix_metadata
        { transform := match job.modelview.getLast? with
            | some last =>
              gsk_transform_transform
                (gsk_transform_translate last.transform
                  job.offset_x job.offset_y) t
            | none => t
          scale_x := 0
          scale_y := 0
          offset_x_before := job.offset_x
          offset_y_before := job.offset_y }] ∧
    (gsk_gl_render_job_push_modelview job t).offset_x = 0 ∧
    (gsk_gl_render_job_push_modelview job t).offset_y = 0 := by
  exact ⟨rfl, rfl, rfl⟩

end GskGL


namespace GskGL

/-- C7: transform-node dispatch by category.  Identity visits the child
with the job unchanged; a 2D translation adds (dx,dy) to the offset
accumulator for the child visit and subtracts it exactly afterwards,
leaving the modelview stack untouched; a 2D affine transform pushes
exactly one modelview frame combining the previous top, the accumulated
translation and the incoming transform, zeroes the accumulator for the
child visit, and pops the frame afterwards restoring the prior offsets;
every higher category leaves the job unchanged and reports the fallback
warning.  The hypothesis states that the child visit is push/pop
balanced and offset neutral. -/
theorem transform_category_dispatch
    (visit : GskGLRenderJob → GskGLRenderJob)
    (hvisit : ∀ j, (visit j).modelview = j.modelview ∧
      (visit j).offset_x = j.offset_x ∧ (visit j).offset_y = j.offset_y)
    (job : GskGLRenderJob) (t : GskTransform) :
    (t.category = .identity →
      gsk_gl_render_job_visit_transform_node visit job t
        = (visit job, false)) ∧
    (t.category = .twoDTranslate →
      gsk_gl_render_job_visit_transform_node visit job t =
        (gsk_gl_render_job_offset
          (visit (gsk_gl_render_job_offset job t.dx t.dy))
          (-t.dx) (-t.dy), false) ∧
      (gsk_gl_render_job_offset job t.dx t.dy).offset_x
        = job.offset_x + t.dx ∧
      (gsk_gl_render_job_offset job t.dx t.dy).offset_y
        = job.offset_y + t.dy ∧
      (gsk_gl_render_job_visit_transform_node visit job t).1.modelview
        = job.modelview ∧
      (gsk_gl_render_job_visit_transform_node visit job t).1.offset_x
        = job.offset_x ∧
      (gsk_gl_render_job_visit_transform_node visit job t).1.offset_y
        = job.offset_y) ∧
    (t.category = .twoDAffine →
      gsk_gl_render_job_visit_transform_node visit job t =
        (gsk_gl_render_job_pop_modelview
          (visit (gsk_gl_render_job_push_modelview job t)), false) ∧
      (gsk_gl_render_job_push_modelview job t).modelview.length
        = job.modelview.length + 1 ∧
      ((gsk_gl_render_job_push_modelview job t).modelview.getLast?.map
          (fun m => m.transform))
        = some (match job.modelview.getLast? with
            | some last =>
              gsk_transform_transform
                (gsk_transform_translate last.transform
                  job.offset_x job.offset_y) t
            | none => t) ∧
      (gsk_gl_render_job_push_modelview job t).offset_x = 0 ∧
      (gsk_gl_render_job_push_modelview job t).offset_y = 0 ∧
      (gsk_gl_render_job_visit_transform_node visit job t).1.modelview
        = job.modelview ∧
      (gsk_gl_render_job_visit_transform_node visit job t).1.offset_x
        = job.offset_x ∧
      (gsk_gl_render_job_visit_transform_node visit job t).1.offset_y
        = job.offset_y) ∧
    ((t.category = .twoD ∨ t.category = .threeD ∨
      t.category = .any ∨ t.category = .unknown) →
      gsk_gl_render_job_visit_transform_node visit job t = (job, true)) := by
  refine ⟨?_, ?_, ?_, ?_⟩
  · intro h
    simp only [gsk_gl_render_job_visit_transform_node,
      gsk_transform_get_category, h]
  · intro h
    have hnode : gsk_gl_render_job_visit_transform_node visit job t =
        (gsk_gl_render_job_offset
          (visit (gsk_gl_render_job_offset job t.dx t.dy))
          (-t.dx) (-t.dy), false) := by
      simp only [gsk_gl_render_job_visit_transform_node,
        gsk_transform_get_category, gsk_transform_to_translate, h]
    refine ⟨hnode, rfl, rfl, ?_, ?_, ?_⟩
    · rw [hnode]
      dsimp only [gsk_gl_render_job_offset]
      rw [(hvisit _).1]
    · rw [hnode]
      dsimp only [gsk_gl_render_job_offset]
      rw [(hvisit _).2.1]
      dsimp only
      ring
    · rw [hnode]
      dsimp only [gsk_gl_render_job_offset]
      rw [(hvisit _).2.2]
      dsimp only
      ring
  · intro h
    have hshape := push_modelview_shape job t
    have hpop := pop_modelview_concat
      (visit (gsk_gl_render_job_push_modelview job t)) job.modelview
      (extract_matrix_metadata
        { transform := match job.modelview.getLast? with
            | some last =>
              gsk_transform_transform
                (gsk_transform_translate last.transform
                  job.offset_x job.offset_y) t
            | none => t
          scale_x := 0
          scale_y := 0
          offset_x_before := job.offset_x
          offset_y_before := job.offset_y })
      (by
        rw [(hvisit (gsk_gl_render_job_push_modelview job t)).1]
        exact hshape.1)
    have hfields := extract_matrix_metadata_fields
      { transform := match job.modelview.getLast? with
          | some last =>
            gsk_transform_transform
              (gsk_transform_translate last.transform
                job.offset_x job.offset_y) t
          | none => t
        scale_x := 0
        scale_y := 0
        offset_x_before := job.offset_x
        offset_y_before := job.offset_y }
    have hnode : gsk_gl_render_job_visit_transform_node visit job t =
        (gsk_gl_render_job_pop_modelview
          (visit (gsk_gl_render_job_push_modelview job t)), false) := by
      simp only [gsk_gl_render_job_visit_transform_node,
        gsk_transform_get_category, h]
    refine ⟨hnode, ?_, ?_, hshape.2.1, hshape.2.2, ?_, ?_, ?_⟩
    · rw [hshape.1]
      simp
    · rw [hshape.1, List.getLast?_concat]
      dsimp only [Option.map]
      rw [hfields.1]
    · rw [hnode]
      exact hpop.1
    · rw [hnode]
      rw [hpop.2.1, hfields.2.1]
    · rw [hnode]
      rw [hpop.2.2, hfields.2.2]
  · intro h
    rcases h with h | h | h | h <;>
      simp only [gsk_gl_render_job_visit_transform_node,
        gsk_transform_get_category, h]

end GskGL


namespace GskGL

/-- A concrete job for the transform-dispatch instantiation. -/
def wJob : GskGLRenderJob :=
  { modelview := []
    offset_x := 3
    offset_y := 4
    scale_x := 1
    scale_y := 1 }

/-- A pure 2D translation by (5,7). -/
def wtTranslate : GskTransform :=
  { category := .twoDTranslate, sx := 1, sy := 1, dx := 5, dy := 7 }

/-- A 2D affine scale-and-translate transform. -/
def wtAffine : GskTransform :=
  { category := .twoDAffine, sx := 2, sy := 3, dx := 1, dy := 1 }

/-- A 3D transform. -/
def wtThreeD : GskTransform :=
  { category := .threeD, sx := 1, sy := 1, dx := 0, dy := 0 }

/-- Concrete instantiation with the identity child visit: the
translation restores the offset accumulator, the affine push/pop leaves
the modelview stack as it was while pushing exactly one frame for the
child, and a 3D transform falls back without touching the job. -/
theorem transform_category_dispatch_witness :
    (gsk_gl_render_job_visit_transform_node id wJob wtTranslate).1.offset_x
      = wJob.offset_x ∧
    (gsk_gl_render_job_visit_transform_node id wJob wtAffine).1.modelview
      = wJob.modelview ∧
    (gsk_gl_render_job_push_modelview wJob wtAffine).modelview.length
      = wJob.modelview.length + 1 ∧
    gsk_gl_render_job_visit_transform_node id wJob wtThreeD
      = (wJob, true) := by
  have hv : ∀ j : GskGLRenderJob, (id j).modelview = j.modelview ∧
      (id j).offset_x = j.offset_x ∧ (id j).offset_y = j.offset_y :=
    fun j => ⟨rfl, rfl, rfl⟩
  refine ⟨?_, ?_, ?_, ?_⟩
  · exact ((transform_category_dispatch id hv wJob wtTranslate).2.1
      rfl).2.2.2.2.1
  · exact ((transform_category_dispatch id hv wJob wtAffine).2.2.1
      rfl).2.2.2.2.2.1
  · exact ((transform_category_dispatch id hv wJob wtAffine).2.2.1 rfl).2.1
  · exact (transform_category_dispatch id hv wJob wtThreeD).2.2.2
      (Or.inr (Or.inl rfl))

end GskGL


namespace GskGL

/-- Modelled from the spec: `gsk_transform_transform_bounds` of the
external gsk library on the affine carrier — the bounding box of the
transformed corners. -/
def gsk_transform_transform_bounds (t : GskTransform) (r : GrapheneRect) :
    GrapheneRect :=
  let x1 := t.dx + t.sx * r.x
  let x2 := t.dx + t.sx * (r.x + r.w)
  let y1 := t.dy + t.sy * r.y
  let y2 := t.dy + t.sy * (r.y + r.h)
  { x := min x1 x2
    y := min y1 y2
    w := max x1 x2 - min x1 x2
    h := max y1 y2 - min y1 y2 }

/-- `gsk_gl_render_job_transform_bounds`: offset the rectangle by the
accumulator and transform it by the modelview top.  The source
assigns `r.size.height = rect->size.width`, so the height passed to the
transform is the input's WIDTH.  `none` models the g_critical path on
an empty modelview, which leaves the output unwritten. -/
def gsk_gl_render_job_transform_bounds (job : GskGLRenderJob)
    (rect : GrapheneRect) : Option GrapheneRect :=
  match job.modelview.getLast? with
  | some modelview =>
    some (gsk_transform_transform_bounds modelview.transform
      { x := rect.x + job.offset_x
        y := rect.y + job.offset_y
        w := rect.w
        h := rect.w })
  | none => none

/-- The spec-prescribed corrected behaviour: width for width, height
for height. -/
def specTransformBounds (job : GskGLRenderJob) (rect : GrapheneRect) :
    Option GrapheneRect :=
  match job.modelview.getLast? with
  | some modelview =>
    some (gsk_transform_transform_bounds modelview.transform
      { x := rect.x + job.offset_x
        y := rect.y + job.offset_y
        w := rect.w
        h := rect.h })
  | none => none

theorem abs_sub_max_min (a b : ℚ) : max a b - min a b = |b - a| := by
  rcases le_total a b with h | h
  · rw [max_eq_right h, min_eq_left h, abs_of_nonneg (sub_nonneg.mpr h)]
  · rw [max_eq_left h, min_eq_right h, abs_of_nonpos (sub_nonpos.mpr h)]
    ring

theorem transform_bounds_h (t : GskTransform) (r : GrapheneRect) :
    (gsk_transform_transform_bounds t r).h = |t.sy * r.h| := by
  dsimp only [gsk_transform_transform_bounds]
  rw [abs_sub_max_min]
  congr 1
  ring

/-- C8: the bounds-transform helper passes a rectangle whose height is
the input's width — the code equals the spec-prescribed helper run on
the input with its height replaced by its width — and for any
normalized input with width different from height, under a modelview
with non-zero vertical scale, the code's output differs from the
width-for-width, height-for-height behaviour. -/
theorem transform_bounds_height_from_width (job : GskGLRenderJob)
    (rect : GrapheneRect) :
    gsk_gl_render_job_transform_bounds job rect
      = specTransformBounds job { rect with h := rect.w } ∧
    (∀ m, job.modelview.getLast? = some m → m.transform.sy ≠ 0 →
      0 ≤ rect.w → 0 ≤ rect.h → rect.w ≠ rect.h →
      gsk_gl_render_job_transform_bounds job rect
        ≠ specTransformBounds job rect) := by
  constructor
  · rfl
  · intro m hm hsy hw hh hne heq
    dsimp only [gsk_gl_render_job_transform_bounds, specTransformBounds] at heq
    rw [hm] at heq
    injection heq with heq2
    have h3 := congrArg GrapheneRect.h heq2
    rw [transform_bounds_h, transform_bounds_h] at h3
    dsimp only at h3
    rw [abs_mul, abs_mul] at h3
    have h4 := mul_left_cancel₀ (abs_ne_zero.mpr hsy) h3
    rw [abs_of_nonneg hw, abs_of_nonneg hh] at h4
    exact hne h4

/-- The transform of the divergence instantiation: scale (1,2). -/
def wBugTransform : GskTransform :=
  { category := .twoDAffine, sx := 1, sy := 2, dx := 0, dy := 0 }

/-- The single modelview frame of the divergence instantiation. -/
def wBugFrame : GskGLRenderModelview :=
  { transform := wBugTransform
    scale_x := 1
    scale_y := 2
    offset_x_before := 0
    offset_y_before := 0 }

/-- A job with one scale-(1,2) modelview frame. -/
def wBugJob : GskGLRenderJob :=
  { modelview := [wBugFrame]
    offset_x := 0
    offset_y := 0
    scale_x := 1
    scale_y := 2 }

/-- A 1 by 2 rectangle. -/
def wBugRect : GrapheneRect := { x := 0, y := 0, w := 1, h := 2 }

/-- Concrete instantiation: with a single scale-(1,2) modelview frame,
transforming the 1 by 2 rectangle yields different bounds from the
corrected width-for-width, height-for-height helper. -/
theorem transform_bounds_height_from_width_witness :
    gsk_gl_render_job_transform_bounds wBugJob wBugRect
      ≠ specTransformBounds wBugJob wBugRect := by
  exact (transform_bounds_height_from_width _ _).2 wBugFrame rfl
    (by norm_num [wBugFrame, wBugTransform]) (by norm_num [wBugRect])
    (by norm_num [wBugRect]) (by norm_num [wBugRect])

end GskGL


namespace GskGL

/-- The fixed gradient stop limit (`MAX_GRADIENT_STOPS`). -/
def MAX_GRADIENT_STOPS : Nat := 6

/-- A gradient color stop (`GskColorStop`): offset plus RGBA, five
floats. -/
structure GskColorStop where
  offset : ℚ
  red : ℚ
  green : ℚ
  blue : ℚ
  alpha : ℚ
  deriving Repr, DecidableEq, Inhabited

/-- The five floats of a stop in memory order. -/
def GskColorStop.flatten (s : GskColorStop) : List ℚ :=
  [s.offset, s.red, s.green, s.blue, s.alpha]

/-- The data of a linear-gradient node read by the visitor. -/
structure GskLinearGradientNode where
  bounds : GrapheneRect
  startPoint : ℚ × ℚ
  endPoint : ℚ × ℚ
  colorStops : List GskColorStop
  deriving Repr, DecidableEq, Inhabited

/-- The observable outcome of visiting a linear-gradient node: either a
direct rectangle draw with the stop count, the flattened stop floats,
the start and end points; or the fallback path. -/
inductive LinearGradientOutcome where
  | direct (numStops : Nat) (stopData : List ℚ)
      (startPoint endPoint : ℚ × ℚ) (rect : GrapheneRect)
  | fallback
  deriving Repr, DecidableEq

/-- `gsk_gl_render_job_visit_linear_gradient_node`: a node with
strictly fewer stops than the maximum is drawn directly — stop count as
a 1i uniform, `n_color_stops * 5` floats of stop data as a 1fv uniform,
start and end points as 2f uniforms, and a rectangle draw of the node
bounds; otherwise the fallback visitor runs. -/
def gsk_gl_render_job_visit_linear_gradient_node
    (node : GskLinearGradientNode) : LinearGradientOutcome :=
  let n_color_stops := node.colorStops.length
  if n_color_stops < MAX_GRADIENT_STOPS then
    .direct n_color_stops
      (((node.colorStops.map GskColorStop.flatten).flatten).take
        (n_color_stops * 5))
      node.startPoint node.endPoint node.bounds
  else .fallback

/-- A stop at the given offset. -/
def mkStop (o : ℚ) : GskColorStop :=
  { offset := o, red := 0, green := 0, blue := 0, alpha := 1 }

/-- A gradient node with exactly `MAX_GRADIENT_STOPS` (six) stops. -/
def sixStopNode : GskLinearGradientNode :=
  { bounds := { x := 0, y := 0, w := 10, h := 10 }
    startPoint := (0, 0)
    endPoint := (10, 0)
    colorStops := [mkStop 0, mkStop (1/5), mkStop (2/5), mkStop (3/5),
      mkStop (4/5), mkStop 1] }

/-- A gradient node with two stops. -/
def twoStopNode : GskLinearGradientNode :=
  { bounds := { x := 0, y := 0, w := 10, h := 10 }
    startPoint := (0, 0)
    endPoint := (10, 0)
    colorStops := [mkStop 0, mkStop 1] }

/-- Counterexample to the claimed inclusive stop limit: a node with
exactly six stops — a count that does not exceed
`MAX_GRADIENT_STOPS = 6` — takes the fallback path, because the source
guard is the strict `n_color_stops < MAX_GRADIENT_STOPS`. -/
theorem gradient_six_stops_counterexample :
    sixStopNode.colorStops.length = MAX_GRADIENT_STOPS ∧
    gsk_gl_render_job_visit_linear_gradient_node sixStopNode
      = .fallback := by
  constructor
  · rfl
  · rfl

/-- C9 (amended): a linear-gradient node with STRICTLY fewer stops than
`MAX_GRADIENT_STOPS = 6` (at most five) is drawn directly as a
rectangle with the stop count, `n * 5` floats of stop data and the
start and end points emitted as uniform data; a node with six or more
stops takes the fallback path, so the direct draw happens exactly when
the stop count is below the maximum. -/
theorem linear_gradient_stop_limit (node : GskLinearGradientNode) :
    (node.colorStops.length < MAX_GRADIENT_STOPS →
      gsk_gl_render_job_visit_linear_gradient_node node =
        .direct node.colorStops.length
          (((node.colorStops.map GskColorStop.flatten).flatten).take
            (node.colorStops.length * 5))
          node.startPoint node.endPoint node.bounds) ∧
    (MAX_GRADIENT_STOPS ≤ node.colorStops.length →
      gsk_gl_render_job_visit_linear_gradient_node node = .fallback) ∧
    (gsk_gl_render_job_visit_linear_gradient_node node ≠ .fallback ↔
      node.colorStops.length < MAX_GRADIENT_STOPS) := by
  refine ⟨?_, ?_, ?_⟩
  · intro h
    dsimp only [gsk_gl_render_job_visit_linear_gradient_node]
    rw [if_pos h]
  · intro h
    dsimp only [gsk_gl_render_job_visit_linear_gradient_node]
    rw [if_neg (not_lt.mpr h)]
  · constructor
    · intro h
      by_contra hc
      exact h (by
        dsimp only [gsk_gl_render_job_visit_linear_gradient_node]
        rw [if_neg hc])
    · intro h
      dsimp only [gsk_gl_render_job_visit_linear_gradient_node]
      rw [if_pos h]
      intro hc
      exact LinearGradientOutcome.noConfusion hc

/-- Concrete instantiation: the two-stop node draws directly with its
ten stop floats, and the six-stop node falls back. -/
theorem linear_gradient_stop_limit_witness :
    gsk_gl_render_job_visit_linear_gradient_node twoStopNode =
      .direct 2
        (((twoStopNode.colorStops.map GskColorStop.flatten).flatten).take 10)
        twoStopNode.startPoint twoStopNode.endPoint twoStopNode.bounds ∧
    gsk_gl_render_job_visit_linear_gradient_node sixStopNode
      = .fallback := by
  constructor
  · exact (linear_gradient_stop_limit twoStopNode).1 (by decide)
  · exact (linear_gradient_stop_limit sixStopNode).2.1 (by decide)

end GskGL
